import Mathlib

/-!
Verification development for the MRI-EnvLogger publishing pipeline
(`src/MRI-EnvLogger.py`).

The Python source is shallowly embedded as follows.

* SQLite `logs` rows become the `LogRow` structure; the `timestamp` column is
  kept as a `String`, exactly as stored.  SQLite compares `TEXT` values by
  byte-wise `memcmp`, which on UTF-8 encoded strings coincides with the
  code-point lexicographic order; that comparison is embedded as the
  executable `sqliteLt` / `sqliteLe` functions on the underlying character
  lists.
* `datetime` values carry (year, month, day, hour, minute, second) fields
  (`PyDateTime`); `strftime("%Y-%m-%d %H:%M:%S")` is `strftimeTs`,
  `strptime` of the same format is `strptimeC`, and subtraction of
  `timedelta(days=30)` is `subDays … 30` (day-by-day calendar walking, which
  for naive datetimes is exactly what the fixed 30·24h offset does).
* Numeric cell values are modeled by `Val` (a number or a raw string, the two
  shapes SQLite can hand back for a dynamically typed column); Python
  `float(x)` becomes `pyFloat`, producing a `PyFloat` — a finite value
  (carried as the exact `Rat` the literal denotes), an infinity (a decimal
  literal whose rounded magnitude overflows the IEEE-754 double range, or an
  `inf`/`infinity` spelling), or a NaN (`nan` spelling).  The accepted
  literal grammar follows CPython: surrounding whitespace, an optional sign,
  `inf`/`infinity`/`nan` case-insensitively, or ASCII digit groups with PEP
  515 underscores (a `_` only between digits) for the integer, fraction and
  exponent parts.  `f"{x:.2f}"` becomes `fmtF2` over `Rat` on finite values
  (the binary double's tie direction is immaterial to the two-decimal shape)
  and the literal `inf`/`-inf`/`nan` renderings otherwise.
* The filesystem is an association list from path to file content (`FS`);
  subprocess execution is a list of scripted outcomes (`ProcOutcome`)
  consumed in order, with every spawned invocation recorded in a trace.

Fallible Python code (raised exceptions) is embedded with `Except String` /
`Option`; all definitions are executable.
-/

/-! ### Decimal digit characters and numerals -/

/-- Decimal digit character for a digit `k < 10` (the shape `"%d"` emits). -/
def digitChar10 : Nat → Char
  | 0 => '0' | 1 => '1' | 2 => '2' | 3 => '3' | 4 => '4'
  | 5 => '5' | 6 => '6' | 7 => '7' | 8 => '8' | _ => '9'

/-- Digit character of `n % 10`. -/
def dChar (n : Nat) : Char := digitChar10 (n % 10)

/-- Zero-padded two-digit field, the output shape of `strftime` `%m`, `%d`,
`%H`, `%M`, `%S` (and of `"%02d"`) for values below 100. -/
def pad2 (n : Nat) : String := ⟨[dChar (n / 10), dChar n]⟩

/-- Zero-padded four-digit field, the output shape of `strftime` `%Y` for
years between 1000 and 9999. -/
def pad4 (n : Nat) : String := ⟨[dChar (n / 1000), dChar (n / 100), dChar (n / 10), dChar n]⟩

/-- Decimal digits of a natural number, most significant first (fuel-driven
so the recursion is structural). -/
def natDigitsCore : Nat → Nat → List Char
  | 0, _ => []
  | fuel + 1, n => if n < 10 then [dChar n] else natDigitsCore fuel (n / 10) ++ [dChar n]

/-- Decimal numeral of a natural number, as Python `str`/`%d` prints it. -/
def natDigits (n : Nat) : String := ⟨natDigitsCore (n + 1) n⟩

/-- Decimal numeral of an integer, as Python `str`/f-string interpolation
prints it. -/
def intStr (n : Int) : String := (if n < 0 then "-" else "") ++ natDigits n.natAbs

/-! ### Lexicographic string comparison (SQLite `TEXT` ordering) -/

/-- Strict lexicographic order on character lists; on UTF-8 strings this is
the byte-wise `memcmp` order SQLite uses for `TEXT` comparisons. -/
def lexLtChars : List Char → List Char → Bool
  | [], [] => false
  | [], _ :: _ => true
  | _ :: _, [] => false
  | a :: as, b :: bs => if a < b then true else if b < a then false else lexLtChars as bs

/-- SQLite `<` on `TEXT` values. -/
def sqliteLt (a b : String) : Bool := lexLtChars a.data b.data

/-- SQLite `<=` on `TEXT` values (used by `BETWEEN`, `>=`, `<=`, `ORDER BY`). -/
def sqliteLe (a b : String) : Bool := !(sqliteLt b a)

/-- Substring occurrence on character lists (Python's `in` on `str`). -/
def subOccurs : List Char → List Char → Bool
  | pat, [] => pat.isEmpty
  | pat, c :: rest => List.isPrefixOf pat (c :: rest) || subOccurs pat rest

/-- Python `pat in s` for strings. -/
def occursIn (pat s : String) : Bool := subOccurs pat.data s.data

/-! ### Lemmas about digits and the lexicographic order -/

theorem digitChar10_isDigit {k : Nat} (h : k < 10) : (digitChar10 k).isDigit = true := by
  interval_cases k <;> decide

theorem dChar_isDigit (n : Nat) : (dChar n).isDigit = true :=
  digitChar10_isDigit (Nat.mod_lt _ (by omega))

theorem digitChar10_toNat {k : Nat} (h : k < 10) : (digitChar10 k).toNat = 48 + k := by
  interval_cases k <;> decide

theorem digitChar10_lt {k l : Nat} (hk : k < 10) (hl : l < 10) :
    (digitChar10 k < digitChar10 l) ↔ k < l := by
  interval_cases k <;> interval_cases l <;> simp <;> decide

theorem digitChar10_inj {k l : Nat} (hk : k < 10) (hl : l < 10) :
    digitChar10 k = digitChar10 l ↔ k = l := by
  interval_cases k <;> interval_cases l <;> simp <;> decide

theorem dChar_lt {k l : Nat} (hk : k < 10) (hl : l < 10) : (dChar k < dChar l) ↔ k < l := by
  unfold dChar
  rw [Nat.mod_eq_of_lt hk, Nat.mod_eq_of_lt hl]
  exact digitChar10_lt hk hl

theorem dChar_inj {k l : Nat} (hk : k < 10) (hl : l < 10) : dChar k = dChar l ↔ k = l := by
  unfold dChar
  rw [Nat.mod_eq_of_lt hk, Nat.mod_eq_of_lt hl]
  exact digitChar10_inj hk hl

theorem lexLtChars_cons (a b : Char) (as bs : List Char) :
    lexLtChars (a :: as) (b :: bs) = true ↔ a < b ∨ (a = b ∧ lexLtChars as bs = true) := by
  by_cases hab : a < b
  · simp [lexLtChars, hab]
  · by_cases hba : b < a
    · constructor
      · intro h; simp [lexLtChars, hab, hba] at h
      · rintro (h | ⟨h, _⟩)
        · exact absurd h hab
        · subst h; exact absurd hba (lt_irrefl a)
    · have heq : a = b := le_antisymm (not_lt.mp hba) (not_lt.mp hab)
      simp [lexLtChars, hab, hba, heq]

theorem lexLtChars_append {x y : List Char} (r1 r2 : List Char) (h : x.length = y.length) :
    lexLtChars (x ++ r1) (y ++ r2) = true ↔
      lexLtChars x y = true ∨ (x = y ∧ lexLtChars r1 r2 = true) := by
  induction x generalizing y with
  | nil =>
    cases y with
    | nil => simp [lexLtChars]
    | cons b bs => simp at h
  | cons a as ih =>
    cases y with
    | nil => simp at h
    | cons b bs =>
      simp only [List.cons_append, lexLtChars_cons]
      rw [ih (by simpa using h)]
      constructor
      · rintro (hab | ⟨hab, (hlt | ⟨heq, hr⟩)⟩)
        · exact Or.inl (Or.inl hab)
        · exact Or.inl (Or.inr ⟨hab, hlt⟩)
        · exact Or.inr ⟨by rw [hab, heq], hr⟩
      · rintro ((hab | ⟨hab, hlt⟩) | ⟨heq, hr⟩)
        · exact Or.inl hab
        · exact Or.inr ⟨hab, Or.inl hlt⟩
        · cases heq; exact Or.inr ⟨rfl, Or.inr ⟨rfl, hr⟩⟩

theorem lexLtChars_irrefl (l : List Char) : lexLtChars l l = false := by
  induction l with
  | nil => rfl
  | cons a as ih => simp [lexLtChars, ih]

theorem lexLtChars_conn {a b : List Char} (hab : lexLtChars a b = false)
    (hba : lexLtChars b a = false) : a = b := by
  induction a generalizing b with
  | nil => cases b with
    | nil => rfl
    | cons x xs => simp [lexLtChars] at hab
  | cons x xs ih =>
    cases b with
    | nil => simp [lexLtChars] at hba
    | cons y ys =>
      by_cases hxy : x < y
      · rw [Bool.eq_false_iff] at hab; exact absurd ((lexLtChars_cons _ _ _ _).mpr (Or.inl hxy)) hab
      · by_cases hyx : y < x
        · rw [Bool.eq_false_iff] at hba
          exact absurd ((lexLtChars_cons _ _ _ _).mpr (Or.inl hyx)) hba
        · have heq : x = y := le_antisymm (not_lt.mp hyx) (not_lt.mp hxy)
          subst heq
          simp only [lexLtChars, lt_irrefl, if_false] at hab hba
          rw [ih hab hba]

theorem lexLtChars_trans {a b c : List Char} (h1 : lexLtChars a b = true)
    (h2 : lexLtChars b c = true) : lexLtChars a c = true := by
  induction a generalizing b c with
  | nil =>
    cases c with
    | nil =>
      cases b with
      | nil => exact h1
      | cons y ys => simp [lexLtChars] at h2
    | cons z zs => rfl
  | cons x xs ih =>
    cases b with
    | nil => simp [lexLtChars] at h1
    | cons y ys =>
      cases c with
      | nil => simp [lexLtChars] at h2
      | cons z zs =>
        rw [lexLtChars_cons] at h1 h2 ⊢
        rcases h1 with hxy | ⟨hxy, h1'⟩
        · rcases h2 with hyz | ⟨hyz, _⟩
          · exact Or.inl (lt_trans hxy hyz)
          · exact Or.inl (hyz ▸ hxy)
        · rcases h2 with hyz | ⟨hyz, h2'⟩
          · exact Or.inl (hxy ▸ hyz)
          · exact Or.inr ⟨hxy.trans hyz, ih h1' h2'⟩

theorem sqliteLe_refl (a : String) : sqliteLe a a = true := by
  simp [sqliteLe, sqliteLt, lexLtChars_irrefl]

theorem sqliteLe_trans {a b c : String} (h1 : sqliteLe a b = true) (h2 : sqliteLe b c = true) :
    sqliteLe a c = true := by
  simp only [sqliteLe, sqliteLt, Bool.not_eq_true'] at h1 h2 ⊢
  by_cases hca : lexLtChars c.data a.data = true
  · by_cases hbc : lexLtChars b.data c.data = true
    · have := lexLtChars_trans hbc hca
      rw [this] at h1; cases h1
    · have hcb : c.data = b.data := lexLtChars_conn h2 (by simpa using hbc)
      rw [hcb] at hca
      rw [hca] at h1; cases h1
  · simpa using hca

theorem sqliteLe_total (a b : String) : sqliteLe a b = true ∨ sqliteLe b a = true := by
  simp only [sqliteLe, sqliteLt, Bool.not_eq_true']
  by_cases h : lexLtChars b.data a.data = true
  · right
    by_cases h2 : lexLtChars a.data b.data = true
    · exact absurd (lexLtChars_trans h h2) (by simp [lexLtChars_irrefl])
    · simpa using h2
  · left; simpa using h

theorem sqliteLe_antisymm {a b : String} (h1 : sqliteLe a b = true) (h2 : sqliteLe b a = true) :
    a.data = b.data := by
  simp only [sqliteLe, sqliteLt, Bool.not_eq_true'] at h1 h2
  exact lexLtChars_conn h2 h1

/-! ### Python `datetime` values and `strftime`/`strptime` of the canonical
timestamp format `"%Y-%m-%d %H:%M:%S"` -/

/-- A naive Python `datetime` value (microseconds are never used by the
program's timestamp handling and are omitted). -/
structure PyDateTime where
  year : Nat
  month : Nat
  day : Nat
  hour : Nat
  minute : Nat
  second : Nat
deriving DecidableEq

/-- Gregorian leap-year rule (as Python's `calendar`/`datetime` use). -/
def isLeap (y : Nat) : Bool := y % 4 == 0 && (y % 100 != 0 || y % 400 == 0)

/-- Number of days in a month. -/
def monthLength (y m : Nat) : Nat :=
  if m = 2 then (if isLeap y then 29 else 28)
  else if m = 4 ∨ m = 6 ∨ m = 9 ∨ m = 11 then 30
  else 31

/-- A real calendar datetime as `datetime.now()` produces, restricted to
four-digit years (every actual run of the program satisfies this). -/
def validDT (d : PyDateTime) : Prop :=
  1000 ≤ d.year ∧ d.year ≤ 9999 ∧ 1 ≤ d.month ∧ d.month ≤ 12 ∧
  1 ≤ d.day ∧ d.day ≤ monthLength d.year d.month ∧
  d.hour ≤ 23 ∧ d.minute ≤ 59 ∧ d.second ≤ 59

instance (d : PyDateTime) : Decidable (validDT d) := by unfold validDT; infer_instance

/-- Two-digit zero-padded field as a character list. -/
def pad2L (n : Nat) : List Char := [dChar (n / 10), dChar n]

/-- Four-digit zero-padded field as a character list. -/
def pad4L (n : Nat) : List Char := [dChar (n / 1000), dChar (n / 100), dChar (n / 10), dChar n]

/-- Character list of `dt.strftime("%Y-%m-%d %H:%M:%S")`. -/
def tsChars (d : PyDateTime) : List Char :=
  pad4L d.year ++ '-' :: (pad2L d.month ++ '-' :: (pad2L d.day ++ ' ' :: (pad2L d.hour ++
    ':' :: (pad2L d.minute ++ ':' :: pad2L d.second))))

/-- Model of `dt.strftime("%Y-%m-%d %H:%M:%S")`: the canonical timestamp the
program writes into the `logs` table. -/
def strftimeTs (d : PyDateTime) : String := ⟨tsChars d⟩

/-- Model of `dt.strftime("%Y%m%d_%H%M%S")`, the archival-file name suffix. -/
def strftimeFileTs (d : PyDateTime) : String :=
  ⟨pad4L d.year ++ pad2L d.month ++ pad2L d.day ++ '_' :: (pad2L d.hour ++ pad2L d.minute ++
    pad2L d.second)⟩

/-- Numeric value of a two-digit field. -/
def twoDigitVal (a b : Char) : Nat := (a.toNat - 48) * 10 + (b.toNat - 48)

/-- Field validation and construction step of
`datetime.strptime(s, "%Y-%m-%d %H:%M:%S")`, applied to the 19 characters of
`s`: all digit positions must be digits, all separators must match, and the
fields must be in range (the `datetime` constructor validates the day against
the month length); otherwise Python raises `ValueError` (`none` here). -/
def strptimeFields (y1 y2 y3 y4 c1 m1 m2 c2 d1 d2 c3 h1 h2 c4 mi1 mi2 c5 s1 s2 : Char) :
    Option PyDateTime :=
  if y1.isDigit && y2.isDigit && y3.isDigit && y4.isDigit &&
      m1.isDigit && m2.isDigit && d1.isDigit && d2.isDigit &&
      h1.isDigit && h2.isDigit && mi1.isDigit && mi2.isDigit &&
      s1.isDigit && s2.isDigit &&
      (c1 == '-') && (c2 == '-') && (c3 == ' ') && (c4 == ':') && (c5 == ':') then
    if 1 ≤ twoDigitVal y1 y2 * 100 + twoDigitVal y3 y4 ∧ 1 ≤ twoDigitVal m1 m2 ∧
        twoDigitVal m1 m2 ≤ 12 ∧ 1 ≤ twoDigitVal d1 d2 ∧
        twoDigitVal d1 d2 ≤
          monthLength (twoDigitVal y1 y2 * 100 + twoDigitVal y3 y4) (twoDigitVal m1 m2) ∧
        twoDigitVal h1 h2 ≤ 23 ∧ twoDigitVal mi1 mi2 ≤ 59 ∧ twoDigitVal s1 s2 ≤ 59 then
      some ⟨twoDigitVal y1 y2 * 100 + twoDigitVal y3 y4, twoDigitVal m1 m2, twoDigitVal d1 d2,
        twoDigitVal h1 h2, twoDigitVal mi1 mi2, twoDigitVal s1 s2⟩
    else none
  else none

/-- Model of `datetime.strptime(s, "%Y-%m-%d %H:%M:%S")`: `none` when Python
would raise `ValueError`. -/
def strptimeC (s : String) : Option PyDateTime :=
  match s.data with
  | [y1, y2, y3, y4, c1, m1, m2, c2, d1, d2, c3, h1, h2, c4, mi1, mi2, c5, s1, s2] =>
    strptimeFields y1 y2 y3 y4 c1 m1 m2 c2 d1 d2 c3 h1 h2 c4 mi1 mi2 c5 s1 s2
  | _ => none

/-- Chronological key of a datetime: fields packed positionally, so that
`dtKey a ≤ dtKey b` iff `a` is no later than `b`. -/
def dtKey (d : PyDateTime) : Nat :=
  ((((d.year * 100 + d.month) * 100 + d.day) * 100 + d.hour) * 100 + d.minute) * 100 + d.second

/-- One calendar day earlier, same time of day. -/
def prevDay (d : PyDateTime) : PyDateTime :=
  if 2 ≤ d.day then { d with day := d.day - 1 }
  else if 2 ≤ d.month then { d with month := d.month - 1, day := monthLength d.year (d.month - 1) }
  else { d with year := d.year - 1, month := 12, day := 31 }

/-- Model of `dt - timedelta(days=n)` for a naive datetime: exactly `n`
calendar days earlier with the time of day unchanged (for naive datetimes the
fixed `n`·24h offset and calendar day-walking coincide). -/
def subDays (d : PyDateTime) : Nat → PyDateTime
  | 0 => d
  | n + 1 => subDays (prevDay d) n

theorem monthLength_bounds (y m : Nat) : 28 ≤ monthLength y m ∧ monthLength y m ≤ 31 := by
  unfold monthLength
  split_ifs <;> omega

theorem dChar_toNat (n : Nat) : (dChar n).toNat = 48 + n % 10 :=
  digitChar10_toNat (Nat.mod_lt _ (by omega))

theorem dChar_lt_mod (k l : Nat) : (dChar k < dChar l) ↔ k % 10 < l % 10 :=
  digitChar10_lt (Nat.mod_lt _ (by omega)) (Nat.mod_lt _ (by omega))

theorem dChar_eq_mod (k l : Nat) : dChar k = dChar l ↔ k % 10 = l % 10 :=
  digitChar10_inj (Nat.mod_lt _ (by omega)) (Nat.mod_lt _ (by omega))

theorem pad2L_lt_iff {m n : Nat} (hm : m < 100) (hn : n < 100) :
    lexLtChars (pad2L m) (pad2L n) = true ↔ m < n := by
  unfold pad2L
  rw [lexLtChars_cons, lexLtChars_cons]
  simp only [lexLtChars, dChar_lt_mod, dChar_eq_mod, Bool.false_eq_true, and_false, or_false]
  have a1 : m / 10 / 10 = m / 100 := by rw [Nat.div_div_eq_div_mul]
  have a2 : n / 10 / 10 = n / 100 := by rw [Nat.div_div_eq_div_mul]
  omega

theorem pad2L_eq_iff {m n : Nat} (hm : m < 100) (hn : n < 100) :
    pad2L m = pad2L n ↔ m = n := by
  unfold pad2L
  simp only [List.cons.injEq, and_true, dChar_eq_mod]
  have a1 : m / 10 / 10 = m / 100 := by rw [Nat.div_div_eq_div_mul]
  have a2 : n / 10 / 10 = n / 100 := by rw [Nat.div_div_eq_div_mul]
  omega

theorem pad4L_decomp (m : Nat) : pad4L m = pad2L (m / 100) ++ pad2L (m % 100) := by
  unfold pad4L pad2L
  have a1 : m / 100 / 10 = m / 1000 := by rw [Nat.div_div_eq_div_mul]
  have c1 : dChar (m / 1000) = dChar (m / 100 / 10) := by rw [dChar_eq_mod]; omega
  have c3 : dChar (m / 10) = dChar (m % 100 / 10) := by rw [dChar_eq_mod]; omega
  have c4 : dChar m = dChar (m % 100) := by rw [dChar_eq_mod]; omega
  simp only [List.cons_append, List.nil_append]
  rw [c1, c3, c4]

theorem lexLt_step2 {m n : Nat} (hm : m < 100) (hn : n < 100) (sep : Char) (r1 r2 : List Char) :
    lexLtChars (pad2L m ++ sep :: r1) (pad2L n ++ sep :: r2) = true ↔
      m < n ∨ (m = n ∧ lexLtChars r1 r2 = true) := by
  rw [lexLtChars_append (sep :: r1) (sep :: r2) (by simp [pad2L])]
  rw [pad2L_lt_iff hm hn, lexLtChars_cons, pad2L_eq_iff hm hn]
  simp [lt_irrefl]

theorem lexLt_step4 {m n : Nat} (hm : m ≤ 9999) (hn : n ≤ 9999) (sep : Char) (r1 r2 : List Char) :
    lexLtChars (pad4L m ++ sep :: r1) (pad4L n ++ sep :: r2) = true ↔
      m < n ∨ (m = n ∧ lexLtChars r1 r2 = true) := by
  have h1 : m / 100 < 100 := by omega
  have h2 : n / 100 < 100 := by omega
  have h3 : m % 100 < 100 := by omega
  have h4 : n % 100 < 100 := by omega
  rw [pad4L_decomp, pad4L_decomp, List.append_assoc, List.append_assoc]
  rw [lexLtChars_append _ _ (by simp [pad2L])]
  rw [pad2L_lt_iff h1 h2, pad2L_eq_iff h1 h2]
  rw [lexLt_step2 h3 h4]
  by_cases hP : lexLtChars r1 r2 = true
  · simp only [hP, and_true]
    constructor
    · rintro (h | ⟨h5, h | h6⟩) <;> omega
    · intro h
      by_cases hq : m / 100 < n / 100
      · exact Or.inl hq
      · exact Or.inr ⟨by omega, by omega⟩
  · simp only [hP, Bool.false_eq_true, and_false, or_false]
    constructor
    · rintro (h | ⟨h5, h6⟩) <;> omega
    · intro h
      by_cases hq : m / 100 < n / 100
      · exact Or.inl hq
      · exact Or.inr ⟨by omega, by omega⟩

theorem pad4L_lt_iff {m n : Nat} (hm : m ≤ 9999) (hn : n ≤ 9999) :
    lexLtChars (pad4L m) (pad4L n) = true ↔ m < n := by
  have h1 : m / 100 < 100 := by omega
  have h2 : n / 100 < 100 := by omega
  have h3 : m % 100 < 100 := by omega
  have h4 : n % 100 < 100 := by omega
  rw [pad4L_decomp, pad4L_decomp]
  rw [lexLtChars_append _ _ (by simp [pad2L])]
  rw [pad2L_lt_iff h1 h2, pad2L_eq_iff h1 h2, pad2L_lt_iff h3 h4]
  omega

/-- Core ordering fact: on canonically formatted timestamps of real calendar
datetimes, the SQLite lexicographic `TEXT` order is the chronological order. -/
theorem strftimeTs_lt_iff {a b : PyDateTime} (ha : validDT a) (hb : validDT b) :
    sqliteLt (strftimeTs a) (strftimeTs b) = true ↔ dtKey a < dtKey b := by
  obtain ⟨ha1, ha2, ha3, ha4, ha5, ha6, ha7, ha8, ha9⟩ := ha
  obtain ⟨hb1, hb2, hb3, hb4, hb5, hb6, hb7, hb8, hb9⟩ := hb
  have hda := (monthLength_bounds a.year a.month).2
  have hdb := (monthLength_bounds b.year b.month).2
  have m1 : a.month < 100 := by omega
  have m2 : b.month < 100 := by omega
  have d1 : a.day < 100 := by omega
  have d2 : b.day < 100 := by omega
  have u1 : a.hour < 100 := by omega
  have u2 : b.hour < 100 := by omega
  have i1 : a.minute < 100 := by omega
  have i2 : b.minute < 100 := by omega
  have s1 : a.second < 100 := by omega
  have s2 : b.second < 100 := by omega
  show lexLtChars (tsChars a) (tsChars b) = true ↔ _
  unfold tsChars
  rw [lexLt_step4 ha2 hb2, lexLt_step2 m1 m2, lexLt_step2 d1 d2, lexLt_step2 u1 u2,
    lexLt_step2 i1 i2, pad2L_lt_iff s1 s2]
  unfold dtKey
  omega

theorem strftimeTs_le_iff {a b : PyDateTime} (ha : validDT a) (hb : validDT b) :
    sqliteLe (strftimeTs a) (strftimeTs b) = true ↔ dtKey a ≤ dtKey b := by
  have h := strftimeTs_lt_iff hb ha
  unfold sqliteLe
  simp only [Bool.not_eq_true']
  constructor
  · intro hle
    by_contra hc
    rw [h.mpr (by omega)] at hle
    cases hle
  · intro hle
    rcases hb2 : sqliteLt (strftimeTs b) (strftimeTs a) with _ | _
    · rfl
    · have := h.mp hb2
      omega

theorem isDigit_toNat_bounds {c : Char} (h : c.isDigit = true) :
    48 ≤ c.toNat ∧ c.toNat ≤ 57 := by
  simp [Char.isDigit] at h
  exact h

theorem digitChar10_of_digit {c : Char} (h : c.isDigit = true) :
    digitChar10 (c.toNat - 48) = c := by
  obtain ⟨h1, h2⟩ := isDigit_toNat_bounds h
  have hk : c.toNat - 48 < 10 := by omega
  have ht : (digitChar10 (c.toNat - 48)).toNat = c.toNat := by
    rw [digitChar10_toNat hk]; omega
  calc digitChar10 (c.toNat - 48)
      = Char.ofNat (digitChar10 (c.toNat - 48)).toNat := (Char.ofNat_toNat _).symm
    _ = Char.ofNat c.toNat := by rw [ht]
    _ = c := Char.ofNat_toNat c

theorem twoDigitVal_dChar {a b : Nat} :
    twoDigitVal (dChar a) (dChar b) = a % 10 * 10 + b % 10 := by
  unfold twoDigitVal
  rw [dChar_toNat, dChar_toNat]
  omega

theorem pad2L_twoDigitVal {a b : Char} (ha : a.isDigit = true) (hb : b.isDigit = true) :
    pad2L (twoDigitVal a b) = [a, b] := by
  obtain ⟨ha1, ha2⟩ := isDigit_toNat_bounds ha
  obtain ⟨hb1, hb2⟩ := isDigit_toNat_bounds hb
  unfold pad2L twoDigitVal dChar
  have e1 : ((a.toNat - 48) * 10 + (b.toNat - 48)) / 10 % 10 = a.toNat - 48 := by omega
  have e2 : ((a.toNat - 48) * 10 + (b.toNat - 48)) % 10 = b.toNat - 48 := by omega
  rw [e1, e2, digitChar10_of_digit ha, digitChar10_of_digit hb]

theorem pad4L_fourDigits {a b c d : Char} (ha : a.isDigit = true) (hb : b.isDigit = true)
    (hc : c.isDigit = true) (hd : d.isDigit = true) :
    pad4L (twoDigitVal a b * 100 + twoDigitVal c d) = [a, b, c, d] := by
  obtain ⟨ha1, ha2⟩ := isDigit_toNat_bounds ha
  obtain ⟨hb1, hb2⟩ := isDigit_toNat_bounds hb
  obtain ⟨hc1, hc2⟩ := isDigit_toNat_bounds hc
  obtain ⟨hd1, hd2⟩ := isDigit_toNat_bounds hd
  rw [pad4L_decomp]
  have e1 : (twoDigitVal a b * 100 + twoDigitVal c d) / 100 = twoDigitVal a b := by
    unfold twoDigitVal; omega
  have e2 : (twoDigitVal a b * 100 + twoDigitVal c d) % 100 = twoDigitVal c d := by
    unfold twoDigitVal; omega
  rw [e1, e2, pad2L_twoDigitVal ha hb, pad2L_twoDigitVal hc hd]
  rfl

/-- Parsing back a canonically formatted valid datetime recovers it
(`strptime(dt.strftime(fmt), fmt) == dt`). -/
theorem strptimeC_strftimeTs {d : PyDateTime} (h : validDT d) :
    strptimeC (strftimeTs d) = some d := by
  obtain ⟨h1, h2, h3, h4, h5, h6, h7, h8, h9⟩ := h
  have hdata : (strftimeTs d).data =
      [dChar (d.year / 1000), dChar (d.year / 100), dChar (d.year / 10), dChar d.year, '-',
       dChar (d.month / 10), dChar d.month, '-', dChar (d.day / 10), dChar d.day, ' ',
       dChar (d.hour / 10), dChar d.hour, ':', dChar (d.minute / 10), dChar d.minute, ':',
       dChar (d.second / 10), dChar d.second] := by
    show tsChars d = _
    simp [tsChars, pad4L, pad2L]
  have hred : strptimeC (strftimeTs d) =
      strptimeFields (dChar (d.year / 1000)) (dChar (d.year / 100)) (dChar (d.year / 10))
        (dChar d.year) '-' (dChar (d.month / 10)) (dChar d.month) '-' (dChar (d.day / 10))
        (dChar d.day) ' ' (dChar (d.hour / 10)) (dChar d.hour) ':' (dChar (d.minute / 10))
        (dChar d.minute) ':' (dChar (d.second / 10)) (dChar d.second) := by
    unfold strptimeC
    rw [hdata]
  rw [hred]
  unfold strptimeFields
  rw [if_pos (by simp [dChar_isDigit])]
  have ty : twoDigitVal (dChar (d.year / 1000)) (dChar (d.year / 100)) * 100 +
      twoDigitVal (dChar (d.year / 10)) (dChar d.year) = d.year := by
    rw [twoDigitVal_dChar, twoDigitVal_dChar]
    have a1 : d.year / 100 / 10 = d.year / 1000 := by rw [Nat.div_div_eq_div_mul]
    have a2 : d.year / 10 / 10 = d.year / 100 := by rw [Nat.div_div_eq_div_mul]
    have a3 : d.year / 1000 / 10 = d.year / 10000 := by rw [Nat.div_div_eq_div_mul]
    omega
  have tmo : twoDigitVal (dChar (d.month / 10)) (dChar d.month) = d.month := by
    rw [twoDigitVal_dChar]
    have a1 : d.month / 10 / 10 = d.month / 100 := by rw [Nat.div_div_eq_div_mul]
    omega
  have tdy : twoDigitVal (dChar (d.day / 10)) (dChar d.day) = d.day := by
    rw [twoDigitVal_dChar]
    have hd31 := (monthLength_bounds d.year d.month).2
    have a1 : d.day / 10 / 10 = d.day / 100 := by rw [Nat.div_div_eq_div_mul]
    omega
  have th : twoDigitVal (dChar (d.hour / 10)) (dChar d.hour) = d.hour := by
    rw [twoDigitVal_dChar]
    have a1 : d.hour / 10 / 10 = d.hour / 100 := by rw [Nat.div_div_eq_div_mul]
    omega
  have tmi : twoDigitVal (dChar (d.minute / 10)) (dChar d.minute) = d.minute := by
    rw [twoDigitVal_dChar]
    have a1 : d.minute / 10 / 10 = d.minute / 100 := by rw [Nat.div_div_eq_div_mul]
    omega
  have tse : twoDigitVal (dChar (d.second / 10)) (dChar d.second) = d.second := by
    rw [twoDigitVal_dChar]
    have a1 : d.second / 10 / 10 = d.second / 100 := by rw [Nat.div_div_eq_div_mul]
    omega
  rw [ty, tmo, tdy, th, tmi, tse]
  rw [if_pos ⟨by omega, h3, h4, h5, h6, h7, h8, h9⟩]

/-- Formatting a parsed timestamp reproduces the original string. -/
theorem strftimeTs_strptimeC {s : String} {d : PyDateTime} (h : strptimeC s = some d) :
    strftimeTs d = s := by
  obtain ⟨sd⟩ := s
  unfold strptimeC at h
  split at h
  case h_2 => cases h
  case h_1 y1 y2 y3 y4 c1 m1 m2 c2 d1 d2 c3 u1 u2 c4 i1 i2 c5 e1 e2 heq =>
    unfold strptimeFields at h
    split at h
    case isFalse => cases h
    case isTrue hcond =>
      split at h
      case isFalse => cases h
      case isTrue hrange =>
        injection h with hd
        simp only [Bool.and_eq_true, beq_iff_eq] at hcond
        obtain ⟨⟨⟨⟨⟨⟨⟨⟨⟨⟨⟨⟨⟨⟨⟨⟨⟨⟨hy1, hy2⟩, hy3⟩, hy4⟩, hm1⟩, hm2⟩, hd1⟩, hd2⟩, hu1⟩,
          hu2⟩, hi1⟩, hi2⟩, he1⟩, he2⟩, hc1⟩, hc2⟩, hc3⟩, hc4⟩, hc5⟩ := hcond
        subst hc1 hc2 hc3 hc4 hc5
        have hfmt : tsChars d = sd := by
          rw [← hd]
          show pad4L _ ++ '-' :: (pad2L _ ++ '-' :: (pad2L _ ++ ' ' :: (pad2L _ ++
            ':' :: (pad2L _ ++ ':' :: pad2L _)))) = sd
          rw [pad4L_fourDigits hy1 hy2 hy3 hy4, pad2L_twoDigitVal hm1 hm2,
            pad2L_twoDigitVal hd1 hd2, pad2L_twoDigitVal hu1 hu2,
            pad2L_twoDigitVal hi1 hi2, pad2L_twoDigitVal he1 he2]
          rw [show sd = [y1, y2, y3, y4, '-', m1, m2, '-', d1, d2, ' ', u1, u2, ':', i1, i2,
            ':', e1, e2] from heq]
          rfl
        exact congrArg String.mk hfmt

/-- A parsed timestamp with a four-digit-scale year is a valid calendar
datetime: `strptime` checks every field range. -/
theorem strptimeC_validDT {s : String} {d : PyDateTime} (h : strptimeC s = some d)
    (hy : 1000 ≤ d.year) : validDT d := by
  unfold strptimeC at h
  split at h
  case h_2 => cases h
  case h_1 y1 y2 y3 y4 c1 m1 m2 c2 d1 d2 c3 u1 u2 c4 i1 i2 c5 e1 e2 heq =>
    unfold strptimeFields at h
    split at h
    case isFalse => cases h
    case isTrue hcond =>
      split at h
      case isFalse => cases h
      case isTrue hrange =>
        injection h with hd
        subst hd
        obtain ⟨r1, r2, r3, r4, r5, r6, r7, r8⟩ := hrange
        simp only [Bool.and_eq_true, beq_iff_eq] at hcond
        obtain ⟨⟨⟨⟨⟨⟨⟨⟨⟨⟨⟨⟨⟨⟨⟨⟨⟨⟨hy1, hy2⟩, hy3⟩, hy4⟩, hm1⟩, hm2⟩, hd1⟩, hd2⟩, hu1⟩,
          hu2⟩, hi1⟩, hi2⟩, he1⟩, he2⟩, hc1⟩, hc2⟩, hc3⟩, hc4⟩, hc5⟩ := hcond
        have hle : twoDigitVal y1 y2 * 100 + twoDigitVal y3 y4 ≤ 9999 := by
          obtain ⟨b1, b2⟩ := isDigit_toNat_bounds hy1
          obtain ⟨b3, b4⟩ := isDigit_toNat_bounds hy2
          obtain ⟨b5, b6⟩ := isDigit_toNat_bounds hy3
          obtain ⟨b7, b8⟩ := isDigit_toNat_bounds hy4
          unfold twoDigitVal
          omega
        exact ⟨hy, hle, r2, r3, r4, r5, r6, r7, r8⟩

theorem monthLength_twelve (y : Nat) : monthLength y 12 = 31 := by
  unfold monthLength
  split_ifs with hf1 hf2 <;> omega

/-- Walking back up to 339 days from a valid datetime of year at least 1001
stays a valid datetime (the walk crosses at most one year boundary; after
crossing, the remaining budget is below a year). -/
theorem subDays_valid : ∀ (n : Nat) (d : PyDateTime), validDT d →
    ((1001 ≤ d.year ∧ n ≤ 339) ∨ (1000 ≤ d.year ∧ n ≤ (d.month - 1) * 28 + d.day - 1)) →
    validDT (subDays d n) := by
  intro n
  induction n with
  | zero => intro d hv _; exact hv
  | succ n ih =>
    intro d hv hinv
    obtain ⟨h1, h2, h3, h4, h5, h6, h7, h8, h9⟩ := hv
    show validDT (subDays (prevDay d) n)
    have hml := monthLength_bounds d.year d.month
    unfold prevDay
    by_cases hd2 : 2 ≤ d.day
    · rw [if_pos hd2]
      apply ih
      · exact ⟨h1, h2, h3, h4, show 1 ≤ d.day - 1 by omega,
          show d.day - 1 ≤ monthLength d.year d.month by omega, h7, h8, h9⟩
      · rcases hinv with ⟨hy, hn⟩ | ⟨hy, hn⟩
        · exact Or.inl ⟨hy, by omega⟩
        · exact Or.inr ⟨hy, show n ≤ (d.month - 1) * 28 + (d.day - 1) - 1 by omega⟩
    · rw [if_neg hd2]
      by_cases hm2 : 2 ≤ d.month
      · rw [if_pos hm2]
        have hml' := monthLength_bounds d.year (d.month - 1)
        apply ih
        · exact ⟨h1, h2, show 1 ≤ d.month - 1 by omega, show d.month - 1 ≤ 12 by omega,
            show 1 ≤ monthLength d.year (d.month - 1) by omega,
            show monthLength d.year (d.month - 1) ≤ monthLength d.year (d.month - 1) from
              le_refl _, h7, h8, h9⟩
        · rcases hinv with ⟨hy, hn⟩ | ⟨hy, hn⟩
          · exact Or.inl ⟨hy, by omega⟩
          · exact Or.inr ⟨hy,
              show n ≤ (d.month - 1 - 1) * 28 + monthLength d.year (d.month - 1) - 1 by omega⟩
      · rw [if_neg hm2]
        rcases hinv with ⟨hy, hn⟩ | ⟨hy, hn⟩
        · apply ih
          · exact ⟨show 1000 ≤ d.year - 1 by omega, show d.year - 1 ≤ 9999 by omega,
              show (1 : Nat) ≤ 12 by omega, show (12 : Nat) ≤ 12 from le_refl _,
              show (1 : Nat) ≤ 31 by omega,
              show (31 : Nat) ≤ monthLength (d.year - 1) 12 by rw [monthLength_twelve],
              h7, h8, h9⟩
          · by_cases hy' : 1001 ≤ d.year - 1
            · exact Or.inl ⟨hy', by omega⟩
            · exact Or.inr ⟨show 1000 ≤ d.year - 1 by omega,
                show n ≤ (12 - 1) * 28 + 31 - 1 by omega⟩
        · omega

/-! ### The record store (SQLite `logs` table) -/

/-- A dynamically typed SQLite cell value as Python receives it: the sensor
columns are declared `REAL`, but SQLite's type affinity still permits textual
content, so a fetched value is either a number or a raw string. -/
inductive Val where
  | num (q : Rat)
  | str (s : String)
deriving DecidableEq

/-- One row of the `logs` table (the `id` key is never read by the program
and is omitted). -/
structure LogRow where
  timestamp : String
  o2 : Val
  rh1 : Val
  temp1 : Val
  rh2 : Val
  temp2 : Val
  elio_ok : String
  aspirazione_ok : String
  operatore : String
deriving DecidableEq

/-- Model of `init_db`: `CREATE TABLE IF NOT EXISTS` keeps an existing table
and otherwise creates an empty one. -/
def init_db (existing : Option (List LogRow)) : List LogRow := existing.getD []

/-- Model of `insert_record`: appends a row stamped with
`datetime.now().strftime("%Y-%m-%d %H:%M:%S")` and returns that timestamp.
(The `CHECK` constraints on the SI/NO columns are enforced by the callers,
which only ever pass the two radio-button literals.) -/
def insert_record (db : List LogRow) (now : PyDateTime) (o2 rh1 temp1 rh2 temp2 : Rat)
    (elio_ok aspirazione_ok operatore : String) : List LogRow × String :=
  (db ++ [⟨strftimeTs now, .num o2, .num rh1, .num temp1, .num rh2, .num temp2,
    elio_ok, aspirazione_ok, operatore⟩], strftimeTs now)

/-- Model of `normalize_to_iso` on the canonical-format branch of
`parse_it_date` (the only branch the dashboard pipeline can take: its bounds
are full 19-character `strftime` outputs, for which the first format matches
and the `only_date` adjustment does not fire; the Italian `d/m/Y` variants
are reachable only from the GUI filter entries).  `none` models the raised
`ValueError`. -/
def normalize_to_iso (s : String) : Option String := (strptimeC s).map strftimeTs

/-- Row order by ascending timestamp (SQLite `TEXT` comparison). -/
def rowLeAsc (a b : LogRow) : Prop := sqliteLe a.timestamp b.timestamp = true

/-- Row order by descending timestamp. -/
def rowLeDesc (a b : LogRow) : Prop := sqliteLe b.timestamp a.timestamp = true

instance : DecidableRel rowLeAsc := fun a b => by unfold rowLeAsc; infer_instance

instance : DecidableRel rowLeDesc := fun a b => by unfold rowLeDesc; infer_instance

instance : IsTotal LogRow rowLeAsc := ⟨fun a b => sqliteLe_total a.timestamp b.timestamp⟩

instance : IsTrans LogRow rowLeAsc := ⟨fun _ _ _ hab hbc => sqliteLe_trans hab hbc⟩

instance : IsTotal LogRow rowLeDesc := ⟨fun a b => sqliteLe_total b.timestamp a.timestamp⟩

instance : IsTrans LogRow rowLeDesc := ⟨fun _ _ _ hab hbc => sqliteLe_trans hbc hab⟩

/-- Ascending `ORDER BY timestamp`.  (SQLite guarantees only a sorted
permutation of the selected rows; insertion sort is the model's concrete
choice.) -/
def sortByTsAsc (rows : List LogRow) : List LogRow := List.insertionSort rowLeAsc rows

/-- Model of `fetch_records`: optional inclusive bounds (`BETWEEN` / `>=` /
`<=` on the `TEXT` timestamp column), results ordered by timestamp
ascending.  The given bounds pass through `normalize_to_iso` first, exactly
as in the source. -/
def fetch_records (db : List LogRow) (start? end? : Option String) :
    Except String (List LogRow) :=
  match start?, end? with
  | some s, some e =>
    match normalize_to_iso s, normalize_to_iso e with
    | some ns, some ne =>
      .ok (sortByTsAsc (db.filter
        (fun r => sqliteLe ns r.timestamp && sqliteLe r.timestamp ne)))
    | _, _ => .error "Formato data/ora non valido. Usa es. 'gg/mm/aa' o 'gg/mm/aaaa' (opzionale 'HH:MM')."
  | some s, none =>
    match normalize_to_iso s with
    | some ns => .ok (sortByTsAsc (db.filter (fun r => sqliteLe ns r.timestamp)))
    | none => .error "Formato data/ora non valido. Usa es. 'gg/mm/aa' o 'gg/mm/aaaa' (opzionale 'HH:MM')."
  | none, some e =>
    match normalize_to_iso e with
    | some ne => .ok (sortByTsAsc (db.filter (fun r => sqliteLe r.timestamp ne)))
    | none => .error "Formato data/ora non valido. Usa es. 'gg/mm/aa' o 'gg/mm/aaaa' (opzionale 'HH:MM')."
  | none, none => .ok (sortByTsAsc db)

/-- Model of `fetch_last_record`: `ORDER BY timestamp DESC LIMIT 1`. -/
def fetch_last_record (db : List LogRow) : Option LogRow :=
  (List.insertionSort rowLeDesc db).head?

/-- The snapshot-aggregation step of `generate_dashboard_html` (its lines
383–389): latest row, 30-day window start, and the window query. -/
def aggregateSnapshot (db : List LogRow) : Except String (LogRow × List LogRow) :=
  match fetch_last_record db with
  | none => .error "Nessun record presente nel database."
  | some last =>
    match strptimeC last.timestamp with
    | none => .error "time data does not match format"
    | some lastDt =>
      match fetch_records db (some (strftimeTs (subDays lastDt 30)))
          (some (strftimeTs lastDt)) with
      | .error e => .error e
      | .ok records => .ok (last, records)

/-- Invariant of the `logs` table: every stored timestamp parses in the
canonical format (in particular it has the canonical 19-character shape). -/
def canonicalInv (db : List LogRow) : Prop :=
  ∀ r ∈ db, ∃ dt, strptimeC r.timestamp = some dt

theorem fetch_last_record_spec {db : List LogRow} (h : db ≠ []) :
    ∃ last, fetch_last_record db = some last ∧ last ∈ db ∧
      ∀ r ∈ db, sqliteLe r.timestamp last.timestamp = true := by
  unfold fetch_last_record
  have hperm := List.perm_insertionSort rowLeDesc db
  have hsorted := List.sorted_insertionSort rowLeDesc db
  cases hm : List.insertionSort rowLeDesc db with
  | nil =>
    rw [hm] at hperm
    exact absurd hperm.symm.eq_nil h
  | cons x xs =>
    refine ⟨x, rfl, ?_, ?_⟩
    · have hx : x ∈ List.insertionSort rowLeDesc db := by
        rw [hm]; exact List.mem_cons_self x xs
      exact hperm.mem_iff.mp hx
    · intro r hr
      have hrm : r ∈ x :: xs := by
        rw [← hm]
        exact hperm.mem_iff.mpr hr
      rcases List.mem_cons.mp hrm with hre | htail
      · rw [hre]; exact sqliteLe_refl _
      · rw [hm] at hsorted
        exact List.rel_of_pairwise_cons hsorted htail

theorem sortByTsAsc_perm (rows : List LogRow) : (sortByTsAsc rows).Perm rows :=
  List.perm_insertionSort rowLeAsc rows

theorem sortByTsAsc_sorted (rows : List LogRow) :
    List.Pairwise (fun a b => sqliteLe a.timestamp b.timestamp = true) (sortByTsAsc rows) :=
  List.sorted_insertionSort rowLeAsc rows

theorem fetch_records_both {db : List LogRow} {s e ns ne : String}
    (hs : normalize_to_iso s = some ns) (he : normalize_to_iso e = some ne) :
    fetch_records db (some s) (some e) =
      .ok (sortByTsAsc (db.filter
        (fun r => sqliteLe ns r.timestamp && sqliteLe r.timestamp ne))) := by
  unfold fetch_records
  dsimp only
  rw [hs, he]

/-! ### Numeric formatting (`format_num`) and Python `float()` -/

/-- Numeric value of a digit string (most significant first). -/
def digitsToNat (l : List Char) : Nat := l.foldl (fun acc c => acc * 10 + (c.toNat - 48)) 0

/-- Rational value of a parsed float literal. -/
def ratOfParts (neg : Bool) (intd fracd : List Char) : Rat :=
  let base : Rat := (digitsToNat intd : Rat) + (digitsToNat fracd : Rat) / (10 : Rat) ^ fracd.length
  if neg then -base else base

/-- Scale by a signed power of ten (the exponent part). -/
def applyTenPow (q : Rat) (neg : Bool) (e : Nat) : Rat :=
  if neg then q / (10 : Rat) ^ e else q * (10 : Rat) ^ e

/-- The value of a Python `float`: a finite value (carried exactly), a
signed infinity, or a NaN. -/
inductive PyFloat where
  | finite (q : Rat)
  | infv (neg : Bool)
  | nanv
deriving DecidableEq

/-- Consume a PEP 515 digit group after at least one digit has been seen: a
digit continues the group, an underscore is consumed only when a digit
follows it, anything else ends the group.  Returns the digits (underscores
removed) and the unconsumed rest. -/
def digitsUCore : List Char → List Char × List Char
  | [] => ([], [])
  | c :: rest =>
    if c.isDigit then
      let p := digitsUCore rest
      (c :: p.1, p.2)
    else if c == '_' then
      match rest with
      | d :: rest2 =>
        if d.isDigit then
          let p := digitsUCore rest2
          (d :: p.1, p.2)
        else ([], c :: d :: rest2)
      | [] => ([], [c])
    else ([], c :: rest)

/-- A possibly-empty digit group with underscore separators; the group must
start with a digit (a leading underscore is consumed by nothing). -/
def digitsGroup (l : List Char) : List Char × List Char :=
  match l with
  | c :: _ => if c.isDigit then digitsUCore l else ([], l)
  | [] => ([], l)

/-- The overflow threshold of IEEE-754 binary64 round-to-nearest-even: a
magnitude of at least `(2^53 − 1)·2^971 + 2^970 = (2^54 − 1)·2^970` (largest
finite double plus half an ulp, the tie rounding to the even `2^1024`)
rounds to infinity. -/
def overflowBound : Nat := (2 ^ 54 - 1) * 2 ^ 970

/-- Whether the exact decimal magnitude `mant · 10^e10` overflows the double
range (computed in `Nat` arithmetic on either side of the scale). -/
def decOverflows (mant : Nat) (e10 : Int) : Bool :=
  match e10 with
  | .ofNat k => decide (overflowBound ≤ mant * 10 ^ k)
  | .negSucc k => decide (overflowBound * 10 ^ (k + 1) ≤ mant)

/-- Classify a parsed decimal literal: infinity when the exact magnitude
overflows the double range (`float('1e999')` is `inf`), otherwise the finite
value. -/
def classifyFloat (neg : Bool) (intd fracd : List Char) (expNeg : Bool) (expVal : Nat) :
    PyFloat :=
  let mant := digitsToNat (intd ++ fracd)
  let e10 : Int := (if expNeg then -(expVal : Int) else (expVal : Int)) - fracd.length
  if decOverflows mant e10 then .infv neg
  else .finite (applyTenPow (ratOfParts neg intd fracd) expNeg expVal)

/-- Model of Python `float(s)` on a string: optional surrounding whitespace,
optional sign, then either a case-insensitive `inf`/`infinity`/`nan`
spelling or a decimal literal — digit groups (with PEP 515 underscores only
between digits) for the integer part, optional fraction and optional
exponent; a literal whose rounded magnitude overflows the double range
yields an infinity.  `none` models the raised `ValueError`.  (Digits are
modeled as ASCII, the alphabet of every value this program stores.) -/
def pyParseFloat (s : String) : Option PyFloat :=
  let l0 := s.data.dropWhile Char.isWhitespace
  let l1 := (l0.reverse.dropWhile Char.isWhitespace).reverse
  let signAndRest : Bool × List Char :=
    match l1 with
    | '-' :: t => (true, t)
    | '+' :: t => (false, t)
    | t => (false, t)
  let low := signAndRest.2.map Char.toLower
  if low = "inf".data || low = "infinity".data then some (.infv signAndRest.1)
  else if low = "nan".data then some .nanv
  else
    let intPart := digitsGroup signAndRest.2
    let fracPart : List Char × List Char :=
      match intPart.2 with
      | '.' :: t => digitsGroup t
      | r => ([], r)
    if intPart.1.isEmpty && fracPart.1.isEmpty then none
    else
      match fracPart.2 with
      | [] => some (classifyFloat signAndRest.1 intPart.1 fracPart.1 false 0)
      | e :: t =>
        if e == 'e' || e == 'E' then
          let expSignAndRest : Bool × List Char :=
            match t with
            | '-' :: t2 => (true, t2)
            | '+' :: t2 => (false, t2)
            | t2 => (false, t2)
          let expPart := digitsGroup expSignAndRest.2
          if expPart.1.isEmpty || !expPart.2.isEmpty then none
          else some (classifyFloat signAndRest.1 intPart.1 fracPart.1
            expSignAndRest.1 (digitsToNat expPart.1))
        else none

/-- Model of Python `float(x)` on a fetched cell value. -/
def pyFloat (v : Val) : Option PyFloat :=
  match v with
  | .num q => some (.finite q)
  | .str s => pyParseFloat s

/-- Model of `f"{x:.2f}"`: the value scaled by 100 and rounded to an integer,
printed with a sign, the integer digits, a dot and exactly two fractional
digits.  (`%.2f` rounds the binary double to nearest; the tie-breaking
direction is immaterial to every claim, which only concern the two-decimal
shape.) -/
def fmtF2 (q : Rat) : String :=
  (if (q * 100 + 1 / 2 : Rat).floor < 0 then "-" else "") ++
    natDigits ((q * 100 + 1 / 2 : Rat).floor.natAbs / 100) ++ "." ++
    pad2 ((q * 100 + 1 / 2 : Rat).floor.natAbs % 100)

/-- `f"{x:.2f}"` on a `PyFloat`: two-decimal formatting of a finite value;
infinities and NaN render as `inf`/`-inf`/`nan` (CPython's fixed-point
format of a non-finite double, which drops a NaN's sign). -/
def fmtF2F : PyFloat → String
  | .finite q => fmtF2 q
  | .infv neg => if neg then "-inf" else "inf"
  | .nanv => "nan"

/-- Python `str(x)` for a cell value.  In `format_num` this is only reached
when `float(x)` raised, which cannot happen for a numeric value, so the
`num` branch is observationally irrelevant there. -/
def pyValStr (v : Val) : String :=
  match v with
  | .str s => s
  | .num q => fmtF2 q

/-- Model of `format_num`: two-decimal formatting with raw-text fallback for
unparsable values (`try: f"{float(x):.2f}" except: str(x)`). -/
def format_num (v : Val) : String :=
  match pyFloat v with
  | some f => fmtF2F f
  | none => pyValStr v

/-- The output of a two-decimal formatting: a dot followed by exactly two
digits at the very end of the string. -/
def twoDecimals (s : String) : Bool :=
  match s.data.reverse with
  | b :: a :: c :: _ => b.isDigit && a.isDigit && (c == '.')
  | _ => false

/-! ### Dashboard rendering and the publish directory -/

/-- The fixed Italian display format `%d/%m/%y %H:%M` of a datetime. -/
def itDisplayOfDT (dt : PyDateTime) : String :=
  pad2 dt.day ++ "/" ++ pad2 dt.month ++ "/" ++ pad2 (dt.year % 100) ++ " " ++
    pad2 dt.hour ++ ":" ++ pad2 dt.minute

/-- Model of `it_ts_display`: reformat a canonical timestamp for display,
returning the raw string when parsing fails (the `except` branch). -/
def it_ts_display (ts : String) : String :=
  match strptimeC ts with
  | some dt => itDisplayOfDT dt
  | none => ts

/-- Model of the Chart.js script-tag selection in `generate_dashboard_html`:
offline asset in the publish directory, else offline asset copied from the
application directory (falling back to the CDN if the copy raises), else the
CDN.  (The copied asset itself is not tracked in the filesystem model; no
claim concerns it.) -/
def chartTag (useOffline chartInOutdir chartInApp chartCopyOk : Bool) : String :=
  if useOffline && chartInOutdir then "<script src=chart.umd.min.js></script>"
  else if useOffline && chartInApp then
    if chartCopyOk then "<script src=chart.umd.min.js></script>"
    else "<script src=https://cdn.jsdelivr.net/npm/chart.js></script>"
  else "<script src=https://cdn.jsdelivr.net/npm/chart.js></script>"

/-- Per-row data of the dashboard loop: display label, the five `float(...)`
chart values, and the history-table row markup. -/
structure SeriesRow where
  label : String
  o2v : PyFloat
  rh1v : PyFloat
  t1v : PyFloat
  rh2v : PyFloat
  t2v : PyFloat
  rowHtml : String

/-- One `<tr>` of the history table (built with `format_num` per cell). -/
def tableRowHtml (r : LogRow) : String :=
  "<tr><td>" ++ it_ts_display r.timestamp ++ "</td><td>" ++ format_num r.o2 ++ "</td><td>" ++
  format_num r.rh1 ++ "</td><td>" ++ format_num r.temp1 ++ "</td><td>" ++ format_num r.rh2 ++
  "</td><td>" ++ format_num r.temp2 ++ "</td><td>" ++ r.elio_ok ++ "</td><td>" ++
  r.aspirazione_ok ++ "</td><td>" ++ r.operatore ++ "</td></tr>"

/-- Python `float(x)` as a fallible step: the raised `ValueError`, whose
message quotes the offending string (`repr`, single quotes). -/
def pyFloatE (v : Val) : Except String PyFloat :=
  match pyFloat v with
  | some f => .ok f
  | none => .error ("could not convert string to float: '" ++ pyValStr v ++ "'")

/-- The dashboard data loop of `generate_dashboard_html` (its lines 391–413):
per record, the display label, the five direct `float(r[...])` conversions —
which raise on an unparsable value — and the `format_num`-rendered table
row. -/
def buildSeries : List LogRow → Except String (List SeriesRow)
  | [] => .ok []
  | r :: rest => do
    let a ← pyFloatE r.o2
    let b ← pyFloatE r.rh1
    let c ← pyFloatE r.temp1
    let d ← pyFloatE r.rh2
    let e ← pyFloatE r.temp2
    let tail ← buildSeries rest
    .ok (⟨it_ts_display r.timestamp, a, b, c, d, e, tableRowHtml r⟩ :: tail)

/-- The rendered dashboard document.  The static boilerplate (CSS, page
structure, the Chart.js configuration) carries no claim-relevant content and
is abbreviated; the dynamic interpolations appear in their source order:
chart script tag, header block with the latest reading (via `format_num` and
`it_ts_display`), history-table rows, and the generation footer. -/
def renderHtml (last : LogRow) (rows : List SeriesRow) (tag : String) (now : PyDateTime) :
    String :=
  "<html><head>" ++ tag ++ "</head><body>" ++
  "Aggiornato al " ++ it_ts_display last.timestamp ++ " - Operatore: " ++ last.operatore ++
  "<div>Data/Ora " ++ it_ts_display last.timestamp ++ "</div>" ++
  "<div>O2 " ++ format_num last.o2 ++ "</div>" ++
  "<div>RH 1 " ++ format_num last.rh1 ++ "</div>" ++
  "<div>Temp 1 " ++ format_num last.temp1 ++ "</div>" ++
  "<div>RH 2 " ++ format_num last.rh2 ++ "</div>" ++
  "<div>Temp 2 " ++ format_num last.temp2 ++ "</div>" ++
  "<div>" ++ last.elio_ok ++ " " ++ last.aspirazione_ok ++ "</div>" ++
  "<table>" ++ String.join (rows.map SeriesRow.rowHtml) ++ "</table>" ++
  "<div>Generato automaticamente - " ++ itDisplayOfDT now ++ "</div></body></html>"

/-- The filesystem: paths mapped to file contents, most recent write first. -/
abbrev FS := List (String × String)

/-- Write (or overwrite) a file. -/
def fsWrite (fs : FS) (path content : String) : FS := (path, content) :: fs

/-- Read a file (`none` when absent). -/
def fsRead (fs : FS) (path : String) : Option String :=
  (fs.find? (fun e => e.1 == path)).map (fun e => e.2)

/-- `os.path.join` (the separator direction is immaterial to the model). -/
def joinPath (d f : String) : String := d ++ "/" ++ f

/-- The file-writing tail of `generate_dashboard_html` (its lines 552–559):
the stable file and the timestamp-qualified archival copy, both with the
same document. -/
def writeDashboardFiles (fs : FS) (outDir html : String) (now : PyDateTime) :
    FS × String × String :=
  let pathLatest := joinPath outDir "dashboard_latest.html"
  let pathTs := joinPath outDir ("dashboard_" ++ strftimeFileTs now ++ ".html")
  (fsWrite (fsWrite fs pathLatest html) pathTs html, pathLatest, pathTs)

/-- Model of `generate_dashboard_html`: empty-directory guard, snapshot
aggregation (which fails on an empty store), the data loop (which fails on an
unparsable sensor value), rendering, and the two file writes. -/
def generate_dashboard_html (fs : FS) (db : List LogRow) (outDir : String)
    (useOffline chartInOutdir chartInApp chartCopyOk : Bool) (now : PyDateTime) :
    Except String (FS × String × String) :=
  if outDir = "" then .error "Cartella dashboard non impostata."
  else
    match aggregateSnapshot db with
    | .error e => .error e
    | .ok (last, records) =>
      match buildSeries records with
      | .error e => .error e
      | .ok rows =>
        .ok (writeDashboardFiles fs outDir
          (renderHtml last rows (chartTag useOffline chartInOutdir chartInApp chartCopyOk) now)
          now)

/-- The `index.html` mirroring step of `App._generate_dashboard_to_fixed_dir`
(its lines 1329–1336): `shutil.copy2` of the stable file onto `index.html`;
if the copy primitive raises, an explicit open-read/open-write of the same
content.  Both paths read the stable file and write its content to
`index.html`, so their effect on file contents is identical; the flag
records which one executed. -/
def copyIndexFromLatest (fs : FS) (dashDir pathLatest : String)
    (copyPrimitiveFails : Bool) : FS :=
  let indexPath := joinPath dashDir "index.html"
  if copyPrimitiveFails then
    match fsRead fs pathLatest with
    | some content => fsWrite fs indexPath content
    | none => fs
  else
    match fsRead fs pathLatest with
    | some content => fsWrite fs indexPath content
    | none => fs

/-- The fixed publish directory `APP_DIR/dashboardmri` (`DASH_DIR`). -/
def DASH_DIR : String := "dashboardmri"

/-- The document-level commit step (spec §4.3 `Commit`): write the stable
file and the timestamp-qualified archival copy, then mirror the stable file
onto the `index.html` entry point. -/
def commitDashboardDoc (fs : FS) (dashDir doc : String) (now : PyDateTime)
    (copyPrimitiveFails : Bool) : FS × String × String :=
  let step := writeDashboardFiles fs dashDir doc now
  (copyIndexFromLatest step.1 dashDir step.2.1 copyPrimitiveFails, step.2.1, step.2.2)

/-- Model of `App._generate_dashboard_to_fixed_dir`: generate into the fixed
directory, then mirror `index.html`. -/
def generate_dashboard_to_fixed_dir (fs : FS) (db : List LogRow)
    (useOffline chartInOutdir chartInApp chartCopyOk copyPrimitiveFails : Bool)
    (now : PyDateTime) : Except String (FS × String × String) :=
  match generate_dashboard_html fs db DASH_DIR useOffline chartInOutdir chartInApp
      chartCopyOk now with
  | .error e => .error e
  | .ok (fs1, latest, tsf) =>
    .ok (copyIndexFromLatest fs1 DASH_DIR latest copyPrimitiveFails, latest, tsf)

/-- The publish portion of `App.save_record` after the insert: the foreground
dashboard generation and commit; only if it succeeds does the background
deploy thread start.  Returns the final filesystem, whether the deploy phase
was started, and the propagated error if any. -/
def publishCycle (fs : FS) (db : List LogRow)
    (useOffline chartInOutdir chartInApp chartCopyOk copyPrimitiveFails : Bool)
    (now : PyDateTime) : FS × Bool × Option String :=
  match generate_dashboard_to_fixed_dir fs db useOffline chartInOutdir chartInApp
      chartCopyOk copyPrimitiveFails now with
  | .error e => (fs, false, some e)
  | .ok (fs', _, _) => (fs', true, none)

/-! ### Tool resolver (`_which_executable`, `_possible_node_dirs`) -/

/-- The resolver's environment: `shutil.which` results on the inherited
search path (name to resolved path), and the set of existing files for
`os.path.isfile`. -/
structure ExecEnv where
  pathHits : List (String × String)
  files : List String

/-- `shutil.which(n)`. -/
def whichPath (env : ExecEnv) (n : String) : Option String :=
  (env.pathHits.find? (fun e => e.1 == n)).map (fun e => e.2)

/-- The conventional Windows executable suffixes tried, in source order. -/
def exeSuffixes : List String := ["", ".cmd", ".exe", ".bat"]

/-- Probe one directory for one candidate name with every suffix. -/
def probeSuffixes (env : ExecEnv) (d base : String) : Option String :=
  exeSuffixes.findSome? (fun suf =>
    if env.files.contains (joinPath d (base ++ suf)) then some (joinPath d (base ++ suf))
    else none)

/-- Probe every directory, in order, for one candidate name. -/
def probeBase (env : ExecEnv) (dirs : List String) (base : String) : Option String :=
  dirs.findSome? (fun d => probeSuffixes env d base)

/-- The search core of `_which_executable` over a given directory list:
every candidate name against the inherited search path first; only if that
phase finds nothing, names (outer) x directories x suffixes (inner), first
match wins. -/
def whichExecutableIn (env : ExecEnv) (dirs : List String) (names : List String) :
    Option String :=
  match names.findSome? (whichPath env) with
  | some p => some p
  | none => names.findSome? (probeBase env dirs)

/-- Relevant process environment for `_possible_node_dirs`: the expanded
environment variables (`""` models an unset variable, as the source's
`or ""` does) and the set of existing directories. -/
structure WinEnv where
  userprofile : String
  appdata : String
  localapp : String
  programFiles : String
  programFilesX86 : String
  isDir : List String

/-- Order-preserving first-occurrence deduplication (`dict.fromkeys`). -/
def dedupFirstGo (seen : List String) : List String → List String
  | [] => []
  | x :: xs => if seen.contains x then dedupFirstGo seen xs else x :: dedupFirstGo (x :: seen) xs

/-- Order-preserving deduplication of the directory list. -/
def dedupFirst (l : List String) : List String := dedupFirstGo [] l

/-- Model of `_possible_node_dirs`: the fixed, ordered list of conventional
install directories, deduplicated preserving first occurrences and filtered
to existing directories. -/
def possible_node_dirs (e : WinEnv) : List String :=
  let dirs :=
    (if e.appdata != "" then [joinPath e.appdata "npm"] else []) ++
    (if e.localapp != "" then [joinPath (joinPath e.localapp "Programs") "npm",
        joinPath (joinPath e.localapp "Programs") "nodejs"] else []) ++
    (if e.programFiles != "" then [joinPath e.programFiles "nodejs"] else []) ++
    (if e.programFilesX86 != "" then [joinPath e.programFilesX86 "nodejs"] else []) ++
    (if e.userprofile != "" then
      [joinPath (joinPath (joinPath e.userprofile "AppData") "Roaming") "npm",
       joinPath (joinPath e.userprofile ".npm") "_npx"] else [])
  (dedupFirst dirs).filter (fun d => d != "" && e.isDir.contains d)

/-- Model of `_which_executable`: search path first, then the conventional
directories.  (The source recomputes `_possible_node_dirs()` inside the
loop; the result is the same list each time.) -/
def which_executable (env : ExecEnv) (we : WinEnv) (names : List String) : Option String :=
  whichExecutableIn env (possible_node_dirs we) names

/-! ### Subprocess execution (`_popen_no_window`, `_run_subprocess`) and the
deploy dispatcher (`deploy_to_surge`) -/

/-- A standard-stream configuration value. -/
inductive StdStream where
  | pipe
  | toStdout
  | inherit
deriving DecidableEq

/-- The `Popen` keyword arguments `_popen_no_window` inspects; `none` models
an absent key. -/
structure PopenKwargs where
  shell : Option Bool
  stdout : Option StdStream
  stderr : Option StdStream
  stdin : Option StdStream
  text : Option Bool
  inputKw : Option String
deriving DecidableEq

/-- Model of `_popen_no_window`'s keyword handling: `shell` defaults to
`False`, `stdout` to `PIPE`, `stderr` to `STDOUT`, and `stdin` to `PIPE`
when text-mode input was passed.  (On Windows the function additionally sets
`STARTUPINFO`/`CREATE_NO_WINDOW`, which affect no claim.) -/
def popen_no_window_kwargs (kw : PopenKwargs) : PopenKwargs :=
  let kw1 := { kw with shell := some (kw.shell.getD false) }
  let kw2 := if kw1.stdout.isNone then { kw1 with stdout := some .pipe } else kw1
  let kw3 := if kw2.stderr.isNone then { kw2 with stderr := some .toStdout } else kw2
  if kw3.stdin.isNone && kw3.text.getD false && kw3.inputKw.isSome then
    { kw3 with stdin := some .pipe }
  else kw3

/-- The keyword arguments `_run_subprocess` passes to `_popen_no_window`:
explicit `stdin` (`PIPE` when there is input, otherwise `None`, i.e.
inherited), piped `stdout`, `stderr` merged into `stdout`, text mode, and no
`shell` key. -/
def runSubprocessKwargs (inputText : Option String) : PopenKwargs :=
  { shell := none,
    stdout := some .pipe,
    stderr := some .toStdout,
    stdin := some (if inputText.isSome then .pipe else .inherit),
    text := some true,
    inputKw := none }

/-- What the operating system does with one spawned child process. -/
inductive ProcOutcome where
  | completes (rc : Int) (out : String)
  | timesOut
  | notFound
  | otherError (msg : String)
deriving DecidableEq

/-- Model of `_run_subprocess`'s result handling: a completed child's code
and combined output; on `TimeoutExpired` the child is killed and `(1,
timeout message)` is returned; a missing executable or any other exception
also yields a `(1, message)` pair — no exception propagates.  The second
component records whether the child was forcibly terminated. -/
def runSubprocessResult : ProcOutcome → (Int × String) × Bool
  | .completes rc out => ((rc, out), false)
  | .timesOut => ((1, "Timeout esecuzione comando."), true)
  | .notFound => ((1, "Comando non trovato."), false)
  | .otherError m => ((1, "Errore esecuzione comando: " ++ m), false)

/-- One recorded subprocess invocation: command line, input, timeout, the
effective `Popen` keyword arguments, the returned pair, and whether the
child was killed. -/
structure SpawnRec where
  cmd : List String
  inputText : Option String
  timeout : Nat
  kwargs : PopenKwargs
  result : Int × String
  killed : Bool
deriving DecidableEq

/-- Execution state: the scripted outcomes still to be consumed, and the
chronological trace of spawned invocations. -/
abbrev SubSt := List ProcOutcome × List SpawnRec

/-- Model of one `_run_subprocess(cmd, input_text, timeout)` call: consumes
the next scripted outcome, appends the invocation to the trace, and returns
the `(returncode, output)` pair. -/
def doRun (st : SubSt) (cmd : List String) (inputText : Option String) (timeout : Nat) :
    (Int × String) × SubSt :=
  let outcome := st.1.headD (.completes 1 "")
  let r := runSubprocessResult outcome
  (r.1, (st.1.tail,
    st.2 ++ [⟨cmd, inputText, timeout, popen_no_window_kwargs (runSubprocessKwargs inputText),
      r.1, r.2⟩]))

/-- The module-level surge configuration constants (empty in the source). -/
def SURGE_DOMAIN : String := ""

/-- The configured surge account identity (empty in the source). -/
def SURGE_EMAIL : String := ""

/-- The configured surge account secret (empty in the source). -/
def SURGE_PASSWORD : String := ""

/-- Python's `str.lower()` on the character sequence (the outputs compared
here are ASCII). -/
def strLower (s : String) : String := ⟨s.data.map Char.toLower⟩

/-- The authenticated-session heuristic of `_surge_login_if_needed`: exit
code zero, non-empty output, and one of three literal substrings in the
lowercased output. -/
def surgeAuthOk (rc : Int) (out : String) : Bool :=
  rc == 0 && out != "" && (occursIn "email" (strLower out) ||
    occursIn "you are" (strLower out) || occursIn "logged" (strLower out))

/-- Model of `_surge_login_if_needed`: `whoami` check; when not
authenticated, a non-interactive `login` fed identity and secret on stdin,
then a `whoami` re-check; success is best-effort. -/
def surge_login_if_needed (surgeCmd : String) (st : SubSt) : (Bool × String) × SubSt :=
  let w1 := doRun st [surgeCmd, "whoami"] none 30
  if surgeAuthOk w1.1.1 w1.1.2 then ((true, w1.1.2), w1.2)
  else
    let w2 := doRun w1.2 [surgeCmd, "login"] (some (SURGE_EMAIL ++ "\n" ++ SURGE_PASSWORD ++ "\n")) 60
    let w3 := doRun w2.2 [surgeCmd, "whoami"] none 30
    ((w2.1.1 == 0 || w3.1.1 == 0, w1.1.2 ++ "\n" ++ w2.1.2 ++ "\n" ++ w3.1.2), w3.2)

/-- The not-logged-in heuristic of the `npx` branch. -/
def npxNeedsLogin (rc : Int) (out : String) : Bool :=
  rc != 0 || occursIn "not logged" (strLower out) || occursIn "no token" (strLower out)

/-- The package-runner phase of `deploy_to_surge` (its lines 667–681),
starting from the accumulated text `last`: if `npx` is unresolved, failure
with both strategies mentioned; otherwise `whoami`, a best-effort `login`
whose result is discarded, and the deploy invocation.  On deploy success the
returned transcript is the deploy output alone. -/
def npxPhase (npxResolved : Option String) (last folder : String) (st : SubSt) :
    (Bool × String) × SubSt :=
  match npxResolved with
  | none =>
    ((false, last ++ "\n[npx] non trovato. Installa Node.js (npx) o aggiungi surge alla PATH."),
      st)
  | some npxCmd =>
    let w1 := doRun st [npxCmd, "surge", "whoami"] none 60
    let st2 := if npxNeedsLogin w1.1.1 w1.1.2 then
        (doRun w1.2 [npxCmd, "surge", "login"]
          (some (SURGE_EMAIL ++ "\n" ++ SURGE_PASSWORD ++ "\n")) 120).2
      else w1.2
    let w2 := doRun st2 [npxCmd, "surge", folder, SURGE_DOMAIN, "--yes"] none 300
    if w2.1.1 == 0 then ((true, w2.1.2), w2.2)
    else ((false, last ++ "\n[npx surge] rc=" ++ intStr w2.1.1 ++ "\n" ++ w2.1.2), w2.2)

/-- The resolved-tool state and scripted child behaviour a dispatch runs
against. -/
structure SubprocWorld where
  surgeResolved : Option String
  npxResolved : Option String
  outcomes : List ProcOutcome

/-- Model of `deploy_to_surge`: direct `surge` attempt (login check, then
deploy; on success the transcript is that deploy's output), falling back to
`npx surge`; when the direct tool is missing the accumulated text records
`"[surge] non trovato; provo npx"`. -/
def deploy_to_surge (w : SubprocWorld) (folder : String) : (Bool × String) × SubSt :=
  let st0 : SubSt := (w.outcomes, [])
  match w.surgeResolved with
  | some surgeCmd =>
    let lg := surge_login_if_needed surgeCmd st0
    let dep := doRun lg.2 [surgeCmd, folder, SURGE_DOMAIN, "--yes"] none 240
    if dep.1.1 == 0 then ((true, dep.1.2), dep.2)
    else npxPhase w.npxResolved ("[surge] rc=" ++ intStr dep.1.1 ++ "\n" ++ dep.1.2) folder dep.2
  | none => npxPhase w.npxResolved "[surge] non trovato; provo npx" folder st0

/-- The dispatch world induced by tool resolution in a given environment. -/
def deployWorldOf (env : ExecEnv) (we : WinEnv) (outs : List ProcOutcome) : SubprocWorld :=
  ⟨which_executable env we ["surge"], which_executable env we ["npx"], outs⟩

/-! ### Specification lemmas for aggregation -/

/-- Full characterisation of the snapshot aggregation on a non-empty store of
canonically stamped rows: the latest row is a maximal-timestamp member, the
window query succeeds, and its result is exactly (up to the sort) the rows
between the formatted 30-day-earlier instant and the latest timestamp,
sorted ascending. -/
theorem aggregateSnapshot_spec (db : List LogRow) (hne : db ≠ [])
    (hcanon : ∀ r ∈ db, ∃ dt, strptimeC r.timestamp = some dt ∧ 1001 ≤ dt.year) :
    ∃ last recs lastDt,
      fetch_last_record db = some last ∧
      aggregateSnapshot db = .ok (last, recs) ∧
      last ∈ db ∧ (∀ r ∈ db, sqliteLe r.timestamp last.timestamp = true) ∧
      strptimeC last.timestamp = some lastDt ∧
      strftimeTs lastDt = last.timestamp ∧
      recs.Perm (db.filter (fun r =>
        sqliteLe (strftimeTs (subDays lastDt 30)) r.timestamp &&
        sqliteLe r.timestamp last.timestamp)) ∧
      List.Pairwise (fun a b => sqliteLe a.timestamp b.timestamp = true) recs := by
  obtain ⟨last, hlastEq, hmem, hmax⟩ := fetch_last_record_spec hne
  obtain ⟨lastDt, hparse, hyear⟩ := hcanon last hmem
  have hvalid : validDT lastDt := strptimeC_validDT hparse (by omega)
  have hwvalid : validDT (subDays lastDt 30) :=
    subDays_valid 30 lastDt hvalid (Or.inl ⟨hyear, by omega⟩)
  have hnorm1 : normalize_to_iso (strftimeTs (subDays lastDt 30)) =
      some (strftimeTs (subDays lastDt 30)) := by
    unfold normalize_to_iso
    rw [strptimeC_strftimeTs hwvalid]
    rfl
  have hnorm2 : normalize_to_iso (strftimeTs lastDt) = some (strftimeTs lastDt) := by
    unfold normalize_to_iso
    rw [strptimeC_strftimeTs hvalid]
    rfl
  have hback : strftimeTs lastDt = last.timestamp := strftimeTs_strptimeC hparse
  have hfetch := @fetch_records_both db _ _ _ _ hnorm1 hnorm2
  refine ⟨last, sortByTsAsc (db.filter (fun r =>
    sqliteLe (strftimeTs (subDays lastDt 30)) r.timestamp &&
    sqliteLe r.timestamp (strftimeTs lastDt))), lastDt,
    hlastEq, ?_, hmem, hmax, hparse, hback, ?_, ?_⟩
  · unfold aggregateSnapshot
    rw [hlastEq]
    dsimp only
    rw [hparse]
    dsimp only
    rw [hfetch]
  · simp only [← hback]
    exact sortByTsAsc_perm _
  · exact sortByTsAsc_sorted _

theorem mem_of_sortByTsAsc {r : LogRow} {l : List LogRow} (h : r ∈ sortByTsAsc l) : r ∈ l :=
  (sortByTsAsc_perm l).mem_iff.mp h

theorem fetch_records_mem {db : List LogRow} {s? e? : Option String} {rows : List LogRow}
    (h : fetch_records db s? e? = .ok rows) : ∀ r ∈ rows, r ∈ db := by
  intro r hr
  unfold fetch_records at h
  split at h
  · split at h
    · injection h with h'
      subst h'
      exact List.mem_of_mem_filter (mem_of_sortByTsAsc hr)
    · cases h
  · split at h
    · injection h with h'
      subst h'
      exact List.mem_of_mem_filter (mem_of_sortByTsAsc hr)
    · cases h
  · split at h
    · injection h with h'
      subst h'
      exact List.mem_of_mem_filter (mem_of_sortByTsAsc hr)
    · cases h
  · injection h with h'
    subst h'
    exact mem_of_sortByTsAsc hr

theorem fetch_last_record_mem {db : List LogRow} {r : LogRow}
    (h : fetch_last_record db = some r) : r ∈ db := by
  unfold fetch_last_record at h
  cases hm : List.insertionSort rowLeDesc db with
  | nil => rw [hm] at h; cases h
  | cons x xs =>
    rw [hm] at h
    injection h with h'
    exact (List.perm_insertionSort rowLeDesc db).mem_iff.mp (by
      rw [hm, h']
      exact List.mem_cons_self _ _)

/-! ### The claims -/

/-- C1: on every non-empty record store (with the canonical-timestamp
invariant the program maintains and a realistic year), snapshot aggregation
succeeds and yields readings that are exactly those rows whose timestamp
lies in the closed interval [latest timestamp minus 30·24h, latest
timestamp] (a permutation of that filter), sorted ascending by timestamp,
with the most-recent reading equal to the store's `fetch_last_record`
result — a member of the store with maximal timestamp. -/
theorem C1_aggregate_window (db : List LogRow) (hne : db ≠ [])
    (hcanon : ∀ r ∈ db, ∃ dt, strptimeC r.timestamp = some dt ∧ 1001 ≤ dt.year) :
    ∃ last recs lastDt,
      fetch_last_record db = some last ∧
      aggregateSnapshot db = .ok (last, recs) ∧
      last ∈ db ∧ (∀ r ∈ db, sqliteLe r.timestamp last.timestamp = true) ∧
      strptimeC last.timestamp = some lastDt ∧
      strftimeTs lastDt = last.timestamp ∧
      recs.Perm (db.filter (fun r =>
        sqliteLe (strftimeTs (subDays lastDt 30)) r.timestamp &&
        sqliteLe r.timestamp last.timestamp)) ∧
      List.Pairwise (fun a b => sqliteLe a.timestamp b.timestamp = true) recs :=
  aggregateSnapshot_spec db hne hcanon

/-- A concrete store row used to instantiate the claims. -/
def witnessRow : LogRow :=
  ⟨"2024-01-10 08:00:00", .num (209 / 10), .num 45, .num (215 / 10), .num 44, .num (213 / 10),
    "SI", "NO", "MRossi"⟩

/-- Witness for C1 at the one-row store. -/
theorem C1_aggregate_window_witness :
    ∃ last recs lastDt,
      fetch_last_record [witnessRow] = some last ∧
      aggregateSnapshot [witnessRow] = .ok (last, recs) ∧
      last ∈ [witnessRow] ∧
      (∀ r ∈ [witnessRow], sqliteLe r.timestamp last.timestamp = true) ∧
      strptimeC last.timestamp = some lastDt ∧
      strftimeTs lastDt = last.timestamp ∧
      recs.Perm (([witnessRow] : List LogRow).filter (fun r =>
        sqliteLe (strftimeTs (subDays lastDt 30)) r.timestamp &&
        sqliteLe r.timestamp last.timestamp)) ∧
      List.Pairwise (fun a b => sqliteLe a.timestamp b.timestamp = true) recs :=
  C1_aggregate_window [witnessRow] (List.cons_ne_nil _ _) (by
    intro r hr
    rw [List.mem_singleton] at hr
    subst hr
    exact ⟨⟨2024, 1, 10, 8, 0, 0⟩, by decide, by decide⟩)

/-- C8: on an empty store, aggregation fails with the no-data error, no
dashboard file is written (the filesystem is returned unchanged), and the
publish cycle does not start its deploy phase. -/
theorem C8_empty_store (fs : FS) (uo cio cia cco cpf : Bool) (now : PyDateTime) :
    aggregateSnapshot ([] : List LogRow) = .error "Nessun record presente nel database." ∧
    publishCycle fs [] uo cio cia cco cpf now =
      (fs, false, some "Nessun record presente nel database.") := by
  constructor
  · rfl
  · rfl

/-- C10: the canonical-timestamp invariant of the `logs` table.  Every
timestamp written by `insert_record` is the `%Y-%m-%d %H:%M:%S` rendering of
the insertion instant, so the invariant that all stored timestamps parse
canonically is preserved by `insert_record`; `init_db` establishes it on a
fresh table; the range/latest queries only read (they return stored rows);
and on canonically formatted stamps of valid datetimes the lexicographic
`TEXT` comparison used by `BETWEEN`/`>=`/`<=`/`ORDER BY` coincides with
chronological order. -/
theorem C10_canonical_invariant :
    (∀ (db : List LogRow) (now : PyDateTime) (o2 rh1 temp1 rh2 temp2 : Rat)
        (el asp op : String), canonicalInv db → validDT now →
      canonicalInv (insert_record db now o2 rh1 temp1 rh2 temp2 el asp op).1 ∧
      (insert_record db now o2 rh1 temp1 rh2 temp2 el asp op).2 = strftimeTs now) ∧
    canonicalInv (init_db none) ∧
    (∀ (db : List LogRow) (s? e? : Option String) (rows : List LogRow),
      fetch_records db s? e? = .ok rows → ∀ r ∈ rows, r ∈ db) ∧
    (∀ (db : List LogRow) (r : LogRow), fetch_last_record db = some r → r ∈ db) ∧
    (∀ a b : PyDateTime, validDT a → validDT b →
      (sqliteLe (strftimeTs a) (strftimeTs b) = true ↔ dtKey a ≤ dtKey b) ∧
      (sqliteLt (strftimeTs a) (strftimeTs b) = true ↔ dtKey a < dtKey b)) := by
  refine ⟨?_, ?_, ?_, ?_, ?_⟩
  · intro db now o2 rh1 temp1 rh2 temp2 el asp op hinv hnow
    constructor
    · intro r hr
      rw [insert_record] at hr
      rcases List.mem_append.mp hr with hin | hnew
      · exact hinv r hin
      · rw [List.mem_singleton] at hnew
        subst hnew
        exact ⟨now, strptimeC_strftimeTs hnow⟩
    · rfl
  · intro r hr
    cases hr
  · intro db s? e? rows h
    exact fetch_records_mem h
  · intro db r h
    exact fetch_last_record_mem h
  · intro a b ha hb
    exact ⟨strftimeTs_le_iff ha hb, strftimeTs_lt_iff ha hb⟩

/-- Witness for C10: inserting at a concrete instant into the empty table,
and the order coincidence at two concrete instants. -/
theorem C10_canonical_invariant_witness :
    canonicalInv (insert_record [] ⟨2024, 1, 10, 8, 0, 0⟩ (209 / 10) 45 (215 / 10) 44 (213 / 10)
      "SI" "NO" "MRossi").1 ∧
    (sqliteLe (strftimeTs ⟨2023, 12, 11, 8, 0, 0⟩) (strftimeTs ⟨2024, 1, 10, 8, 0, 0⟩) = true ↔
      dtKey ⟨2023, 12, 11, 8, 0, 0⟩ ≤ dtKey ⟨2024, 1, 10, 8, 0, 0⟩) :=
  ⟨(C10_canonical_invariant.1 [] ⟨2024, 1, 10, 8, 0, 0⟩ (209 / 10) 45 (215 / 10) 44 (213 / 10)
      "SI" "NO" "MRossi" (fun r hr => absurd hr (List.not_mem_nil r)) (by decide)).1,
    (C10_canonical_invariant.2.2.2.2 ⟨2023, 12, 11, 8, 0, 0⟩ ⟨2024, 1, 10, 8, 0, 0⟩
      (by decide) (by decide)).1⟩

theorem twoDecimals_dotPad (s : String) (k : Nat) : twoDecimals (s ++ "." ++ pad2 k) = true := by
  unfold twoDecimals pad2
  rw [String.data_append, String.data_append]
  have h1 : ("." : String).data = ['.'] := rfl
  rw [h1]
  simp [List.reverse_append, dChar_isDigit]

theorem twoDecimals_fmtF2 (q : Rat) : twoDecimals (fmtF2 q) = true := by
  unfold fmtF2
  exact twoDecimals_dotPad _ _

theorem buildSeries_ok {records : List LogRow}
    (h : ∀ r ∈ records, (pyFloat r.o2).isSome ∧ (pyFloat r.rh1).isSome ∧
      (pyFloat r.temp1).isSome ∧ (pyFloat r.rh2).isSome ∧ (pyFloat r.temp2).isSome) :
    ∃ rows, buildSeries records = .ok rows := by
  induction records with
  | nil => exact ⟨[], rfl⟩
  | cons r rest ih =>
    obtain ⟨h1, h2, h3, h4, h5⟩ := h r (List.mem_cons_self r rest)
    obtain ⟨q1, hq1⟩ := Option.isSome_iff_exists.mp h1
    obtain ⟨q2, hq2⟩ := Option.isSome_iff_exists.mp h2
    obtain ⟨q3, hq3⟩ := Option.isSome_iff_exists.mp h3
    obtain ⟨q4, hq4⟩ := Option.isSome_iff_exists.mp h4
    obtain ⟨q5, hq5⟩ := Option.isSome_iff_exists.mp h5
    obtain ⟨tail, htail⟩ := ih (fun x hx => h x (List.mem_cons_of_mem r hx))
    refine ⟨⟨it_ts_display r.timestamp, q1, q2, q3, q4, q5, tableRowHtml r⟩ :: tail, ?_⟩
    unfold buildSeries
    simp only [pyFloatE, hq1, hq2, hq3, hq4, hq5, htail]
    rfl

/-- A store row whose O2 cell is the unparsable text `"abc"`. -/
def badRow : LogRow :=
  ⟨"2024-01-10 08:00:00", .str "abc", .num 45, .num (215 / 10), .num 44, .num (213 / 10),
    "SI", "NO", "MRossi"⟩

theorem exceptBind_ok {α β : Type} {x : Except String α} {f : α → Except String β} {b : β}
    (h : (x >>= f) = .ok b) : ∃ a, x = .ok a ∧ f a = .ok b := by
  cases x with
  | error e => simp [Bind.bind, Except.bind] at h
  | ok a => exact ⟨a, rfl, by simpa [Bind.bind, Except.bind] using h⟩

theorem pyFloatE_isSome {v : Val} {f : PyFloat} (h : pyFloatE v = .ok f) :
    (pyFloat v).isSome = true := by
  cases hv : pyFloat v with
  | some g => rfl
  | none =>
    unfold pyFloatE at h
    rw [hv] at h
    cases h

theorem buildSeries_fields {records : List LogRow} {rows : List SeriesRow}
    (h : buildSeries records = .ok rows) :
    ∀ r ∈ records, (pyFloat r.o2).isSome = true ∧ (pyFloat r.rh1).isSome = true ∧
      (pyFloat r.temp1).isSome = true ∧ (pyFloat r.rh2).isSome = true ∧
      (pyFloat r.temp2).isSome = true := by
  induction records generalizing rows with
  | nil => intro r hr; cases hr
  | cons a rest ih =>
    unfold buildSeries at h
    obtain ⟨q1, h1, h⟩ := exceptBind_ok h
    obtain ⟨q2, h2, h⟩ := exceptBind_ok h
    obtain ⟨q3, h3, h⟩ := exceptBind_ok h
    obtain ⟨q4, h4, h⟩ := exceptBind_ok h
    obtain ⟨q5, h5, h⟩ := exceptBind_ok h
    obtain ⟨tl, ht, hlast⟩ := exceptBind_ok h
    intro r hr
    rcases List.mem_cons.mp hr with he | hmem
    · subst he
      exact ⟨pyFloatE_isSome h1, pyFloatE_isSome h2, pyFloatE_isSome h3,
        pyFloatE_isSome h4, pyFloatE_isSome h5⟩
    · exact ih ht r hmem

set_option maxRecDepth 100000 in
set_option exponentiation.threshold 2000 in
/-- C4 counterexample: on a snapshot containing the non-numeric O2 value
`"abc"`, `format_num` does degrade to the raw text, but dashboard generation
raises (the chart-series construction applies `float(...)` directly), so
rendering does not complete for every snapshot.  The two-decimal clause also
fails on a parsable value: `float('1e999')` overflows to an infinity
(no `ValueError`), which the two-decimal format renders as `inf` — not two
decimal places — and `'1_5'` parses as a finite float (PEP 515
underscores), so it is not in the raw-degradation set either. -/
theorem C4_render_raises_counterexample :
    format_num (Val.str "abc") = "abc" ∧
    buildSeries [badRow] = .error "could not convert string to float: 'abc'" ∧
    generate_dashboard_html [] [badRow] DASH_DIR false false false false
      ⟨2024, 1, 10, 9, 0, 0⟩ = .error "could not convert string to float: 'abc'" ∧
    format_num (Val.str "1e999") = "inf" ∧
    twoDecimals (format_num (Val.str "1e999")) = false ∧
    (∃ q, pyFloat (Val.str "1_5") = some (PyFloat.finite q)) := by
  refine ⟨rfl, rfl, rfl, by decide, by decide, ⟨_, rfl⟩⟩

/-- C4 as amended: `format_num` renders every value parsing to a finite
float with exactly two decimal places; a value parsing to an infinity or a
NaN (possible without a `ValueError`, e.g. `1e999`) renders as
`inf`/`-inf`/`nan` — not two decimals; an unparsable value degrades to its
raw text; and — per the counterexample, because the chart-series loop
applies `float(...)` directly — dashboard generation completes exactly when
every sensor cell of every windowed row parses as a float. -/
theorem C4_two_decimals (db : List LogRow) (fs : FS) (outDir : String) (hdir : outDir ≠ "")
    (uo cio cia cco : Bool) (now : PyDateTime) :
    (∀ v q, pyFloat v = some (PyFloat.finite q) →
      format_num v = fmtF2 q ∧ twoDecimals (format_num v) = true) ∧
    (∀ v neg, pyFloat v = some (PyFloat.infv neg) →
      format_num v = (if neg then "-inf" else "inf") ∧ twoDecimals (format_num v) = false) ∧
    (∀ v, pyFloat v = some PyFloat.nanv →
      format_num v = "nan" ∧ twoDecimals (format_num v) = false) ∧
    (∀ s, pyParseFloat s = none → format_num (Val.str s) = s) ∧
    (∀ last recs, aggregateSnapshot db = .ok (last, recs) →
      ((∃ out, generate_dashboard_html fs db outDir uo cio cia cco now = .ok out) ↔
        ∀ r ∈ recs, (pyFloat r.o2).isSome = true ∧ (pyFloat r.rh1).isSome = true ∧
          (pyFloat r.temp1).isSome = true ∧ (pyFloat r.rh2).isSome = true ∧
          (pyFloat r.temp2).isSome = true)) := by
  refine ⟨?_, ?_, ?_, ?_, ?_⟩
  · intro v q hq
    constructor
    · unfold format_num
      rw [hq]
      rfl
    · unfold format_num
      rw [hq]
      exact twoDecimals_fmtF2 q
  · intro v neg hv
    constructor
    · unfold format_num
      rw [hv]
      cases neg <;> rfl
    · unfold format_num
      rw [hv]
      cases neg <;> rfl
  · intro v hv
    constructor
    · unfold format_num
      rw [hv]
      rfl
    · unfold format_num
      rw [hv]
      rfl
  · intro s hs
    unfold format_num pyFloat
    dsimp only
    rw [hs]
    rfl
  · intro last recs hagg
    constructor
    · rintro ⟨out, hout⟩
      unfold generate_dashboard_html at hout
      rw [if_neg hdir, hagg] at hout
      dsimp only at hout
      cases hb : buildSeries recs with
      | error e => rw [hb] at hout; cases hout
      | ok rows => exact buildSeries_fields hb
    · intro hnum
      obtain ⟨rows, hrows⟩ := buildSeries_ok hnum
      refine ⟨writeDashboardFiles fs outDir
        (renderHtml last rows (chartTag uo cio cia cco) now) now, ?_⟩
      unfold generate_dashboard_html
      rw [if_neg hdir, hagg]
      dsimp only
      rw [hrows]

set_option maxRecDepth 8000 in
/-- Witness for C4: the two-decimal rendering of a concrete numeric value
and a completed generation on the one-row store. -/
theorem C4_two_decimals_witness :
    format_num (Val.num (209 / 10)) = fmtF2 (209 / 10) ∧
    (∃ out, generate_dashboard_html [] [witnessRow] DASH_DIR false false false false
      ⟨2024, 1, 10, 9, 0, 0⟩ = .ok out) := by
  have h := C4_two_decimals [witnessRow] [] DASH_DIR (by decide) false false false false
    ⟨2024, 1, 10, 9, 0, 0⟩
  refine ⟨(h.1 (Val.num (209 / 10)) (209 / 10) rfl).1, ?_⟩
  exact (h.2.2.2.2 witnessRow [witnessRow] (by rfl)).mpr (fun r hr => by
    rw [List.mem_singleton] at hr
    subst hr
    exact ⟨rfl, rfl, rfl, rfl, rfl⟩)

theorem stringDataInj {a b : String} (h : a.data = b.data) : a = b := by
  cases a
  cases b
  exact congrArg String.mk h

theorem fsRead_write (fs : FS) (p c p' : String) :
    fsRead (fsWrite fs p c) p' = if p = p' then some c else fsRead fs p' := by
  unfold fsRead fsWrite
  by_cases h : p = p'
  · subst h
    simp [List.find?]
  · have hb : (p == p') = false := by simp [h]
    simp [List.find?, hb, h]

theorem joinPath_ne {d a b : String} (h : a ≠ b) : joinPath d a ≠ joinPath d b := by
  intro he
  apply h
  have hd := congrArg String.data he
  rw [show joinPath d a = (d ++ "/") ++ a from rfl, show joinPath d b = (d ++ "/") ++ b from rfl,
    String.data_append, String.data_append] at hd
  exact stringDataInj (List.append_cancel_left hd)

theorem strftimeFileTs_length (t : PyDateTime) : (strftimeFileTs t).length = 15 := rfl

theorem dashNames_distinct (t : PyDateTime) :
    ("dashboard_latest.html" : String) ≠ "index.html" ∧
    ("dashboard_" ++ strftimeFileTs t ++ ".html") ≠ "dashboard_latest.html" ∧
    ("dashboard_" ++ strftimeFileTs t ++ ".html") ≠ "index.html" := by
  refine ⟨by decide, ?_, ?_⟩
  · intro h
    have hlen := congrArg String.length h
    rw [String.length_append, String.length_append, strftimeFileTs_length] at hlen
    have e1 : ("dashboard_" : String).length = 10 := rfl
    have e2 : (".html" : String).length = 5 := rfl
    have e3 : ("dashboard_latest.html" : String).length = 21 := rfl
    rw [e1, e2, e3] at hlen
    omega
  · intro h
    have hlen := congrArg String.length h
    rw [String.length_append, String.length_append, strftimeFileTs_length] at hlen
    have e1 : ("dashboard_" : String).length = 10 := rfl
    have e2 : (".html" : String).length = 5 := rfl
    have e3 : ("index.html" : String).length = 10 := rfl
    rw [e1, e2, e3] at hlen
    omega

theorem commitDashboardDoc_fs (fs : FS) (dashDir doc : String) (t : PyDateTime) (cf : Bool) :
    (commitDashboardDoc fs dashDir doc t cf).1 =
      fsWrite (fsWrite (fsWrite fs (joinPath dashDir "dashboard_latest.html") doc)
        (joinPath dashDir ("dashboard_" ++ strftimeFileTs t ++ ".html")) doc)
        (joinPath dashDir "index.html") doc := by
  obtain ⟨hln, hal, hai⟩ := dashNames_distinct t
  have hread : fsRead (fsWrite (fsWrite fs (joinPath dashDir "dashboard_latest.html") doc)
      (joinPath dashDir ("dashboard_" ++ strftimeFileTs t ++ ".html")) doc)
      (joinPath dashDir "dashboard_latest.html") = some doc := by
    rw [fsRead_write, if_neg (joinPath_ne hal), fsRead_write, if_pos rfl]
  unfold commitDashboardDoc writeDashboardFiles copyIndexFromLatest
  dsimp only
  cases cf
  · rw [if_neg (by simp : ¬ (false = true))]
    rw [hread]
  · rw [if_pos rfl]
    rw [hread]

theorem commit_read_index (fs : FS) (dashDir doc : String) (t : PyDateTime) (cf : Bool) :
    fsRead (commitDashboardDoc fs dashDir doc t cf).1 (joinPath dashDir "index.html") =
      some doc := by
  rw [commitDashboardDoc_fs, fsRead_write, if_pos rfl]

theorem commit_read_latest (fs : FS) (dashDir doc : String) (t : PyDateTime) (cf : Bool) :
    fsRead (commitDashboardDoc fs dashDir doc t cf).1
      (joinPath dashDir "dashboard_latest.html") = some doc := by
  obtain ⟨hln, hal, hai⟩ := dashNames_distinct t
  rw [commitDashboardDoc_fs, fsRead_write, if_neg (joinPath_ne (Ne.symm hln)),
    fsRead_write, if_neg (joinPath_ne hal), fsRead_write, if_pos rfl]

theorem commit_read_arch (fs : FS) (dashDir doc : String) (t : PyDateTime) (cf : Bool) :
    fsRead (commitDashboardDoc fs dashDir doc t cf).1
      (joinPath dashDir ("dashboard_" ++ strftimeFileTs t ++ ".html")) = some doc := by
  obtain ⟨hln, hal, hai⟩ := dashNames_distinct t
  rw [commitDashboardDoc_fs, fsRead_write, if_neg (joinPath_ne (Ne.symm hai)),
    fsRead_write, if_pos rfl]

theorem commit_read_other (fs : FS) (dashDir doc : String) (t : PyDateTime) (cf : Bool)
    (p : String) (h1 : joinPath dashDir "index.html" ≠ p)
    (h2 : joinPath dashDir "dashboard_latest.html" ≠ p)
    (h3 : joinPath dashDir ("dashboard_" ++ strftimeFileTs t ++ ".html") ≠ p) :
    fsRead (commitDashboardDoc fs dashDir doc t cf).1 p = fsRead fs p := by
  rw [commitDashboardDoc_fs, fsRead_write, if_neg h1, fsRead_write, if_neg h3,
    fsRead_write, if_neg h2]

/-- C5: the commit step is idempotent — committing the same document twice
yields identical stable-file and entry-point-file contents, each archival
copy (under its timestamp-qualified name) holding the same document; and
within a single commit (whichever of the copy primitive or the explicit
read-then-write fallback runs) the entry point `index.html` holds exactly
the stable file's content. -/
theorem C5_commit_idempotent (fs : FS) (dashDir doc : String) (t1 t2 t : PyDateTime)
    (cf1 cf2 cf : Bool) :
    (fsRead (commitDashboardDoc fs dashDir doc t cf).1 (joinPath dashDir "index.html") =
        some doc ∧
      fsRead (commitDashboardDoc fs dashDir doc t cf).1
        (joinPath dashDir "dashboard_latest.html") = some doc ∧
      fsRead (commitDashboardDoc fs dashDir doc t cf).1
        (joinPath dashDir ("dashboard_" ++ strftimeFileTs t ++ ".html")) = some doc) ∧
    (fsRead (commitDashboardDoc (commitDashboardDoc fs dashDir doc t1 cf1).1 dashDir doc t2
          cf2).1 (joinPath dashDir "dashboard_latest.html") =
        fsRead (commitDashboardDoc fs dashDir doc t1 cf1).1
          (joinPath dashDir "dashboard_latest.html") ∧
      fsRead (commitDashboardDoc (commitDashboardDoc fs dashDir doc t1 cf1).1 dashDir doc t2
          cf2).1 (joinPath dashDir "index.html") =
        fsRead (commitDashboardDoc fs dashDir doc t1 cf1).1 (joinPath dashDir "index.html") ∧
      fsRead (commitDashboardDoc (commitDashboardDoc fs dashDir doc t1 cf1).1 dashDir doc t2
          cf2).1 (joinPath dashDir ("dashboard_" ++ strftimeFileTs t1 ++ ".html")) = some doc ∧
      fsRead (commitDashboardDoc (commitDashboardDoc fs dashDir doc t1 cf1).1 dashDir doc t2
          cf2).1 (joinPath dashDir ("dashboard_" ++ strftimeFileTs t2 ++ ".html")) = some doc) := by
  refine ⟨⟨commit_read_index _ _ _ _ _, commit_read_latest _ _ _ _ _,
    commit_read_arch _ _ _ _ _⟩, ?_, ?_, ?_, commit_read_arch _ _ _ _ _⟩
  · rw [commit_read_latest, commit_read_latest]
  · rw [commit_read_index, commit_read_index]
  · by_cases harch : joinPath dashDir ("dashboard_" ++ strftimeFileTs t2 ++ ".html") =
        joinPath dashDir ("dashboard_" ++ strftimeFileTs t1 ++ ".html")
    · rw [← harch]
      exact commit_read_arch _ _ _ _ _
    · obtain ⟨hln1, hal1, hai1⟩ := dashNames_distinct t1
      rw [commit_read_other _ _ _ _ _ _ (joinPath_ne (Ne.symm hai1))
        (joinPath_ne (Ne.symm hal1)) harch]
      exact commit_read_arch _ _ _ _ _

/-- Whether a directory contains any match for any candidate name with any
suffix. -/
def dirHasMatch (env : ExecEnv) (names : List String) (d : String) : Bool :=
  names.any (fun base => exeSuffixes.any (fun suf =>
    env.files.contains (joinPath d (base ++ suf))))

theorem probeSuffixes_isSome_hasMatch {env : ExecEnv} {d base : String} {names : List String}
    (hb : base ∈ names) (h : (probeSuffixes env d base).isSome) :
    dirHasMatch env names d = true := by
  unfold probeSuffixes at h
  unfold dirHasMatch
  rw [List.any_eq_true]
  refine ⟨base, hb, ?_⟩
  rw [List.any_eq_true]
  obtain ⟨p, hp⟩ := Option.isSome_iff_exists.mp h
  obtain ⟨suf, hsuf, hfs⟩ := List.exists_of_findSome?_eq_some hp
  refine ⟨suf, hsuf, ?_⟩
  by_cases hc : env.files.contains (joinPath d (base ++ suf)) = true
  · exact hc
  · rw [if_neg (by simpa using hc)] at hfs
    cases hfs

theorem findSome?_unique {α β : Type} [DecidableEq α] (f : α → Option β) (l : List α) (d0 : α)
    (h : ∀ d ∈ l, (f d).isSome → d = d0) :
    l.findSome? f = if d0 ∈ l then f d0 else none := by
  induction l with
  | nil => simp
  | cons a as ih =>
    rw [List.findSome?_cons]
    cases hfa : f a with
    | some b =>
      have ha : a = d0 := h a (List.mem_cons_self _ _) (by rw [hfa]; rfl)
      subst ha
      rw [if_pos (List.mem_cons_self _ _), hfa]
    | none =>
      rw [ih (fun d hd hs => h d (List.mem_cons_of_mem a hd) hs)]
      by_cases hmem : d0 ∈ as
      · rw [if_pos hmem, if_pos (List.mem_cons_of_mem a hmem)]
      · rw [if_neg hmem]
        by_cases had : d0 ∈ a :: as
        · rcases List.mem_cons.mp had with he | hmem2
          · rw [if_pos had, he, hfa]
          · exact absurd hmem2 hmem
        · rw [if_neg had]

theorem findSome?_congrFun {α β : Type} (l : List α) (f g : α → Option β)
    (h : ∀ a ∈ l, f a = g a) : l.findSome? f = l.findSome? g := by
  induction l with
  | nil => rfl
  | cons a as ih =>
    rw [List.findSome?_cons, List.findSome?_cons, h a (List.mem_cons_self _ _),
      ih (fun x hx => h x (List.mem_cons_of_mem a hx))]

theorem probeBase_perm (env : ExecEnv) (names : List String) {dirs dirs' : List String}
    (hperm : dirs.Perm dirs')
    (huniq : ∃ d0 ∈ dirs, dirHasMatch env names d0 = true ∧
      ∀ d ∈ dirs, dirHasMatch env names d = true → d = d0)
    {base : String} (hb : base ∈ names) :
    probeBase env dirs base = probeBase env dirs' base := by
  obtain ⟨d0, hd0mem, hd0m, huni⟩ := huniq
  have hcond : ∀ d ∈ dirs, (probeSuffixes env d base).isSome → d = d0 := fun d hd hs =>
    huni d hd (probeSuffixes_isSome_hasMatch hb hs)
  have hcond' : ∀ d ∈ dirs', (probeSuffixes env d base).isSome → d = d0 := fun d hd hs =>
    huni d (hperm.mem_iff.mpr hd) (probeSuffixes_isSome_hasMatch hb hs)
  unfold probeBase
  rw [findSome?_unique _ _ d0 hcond, findSome?_unique _ _ d0 hcond',
    if_pos hd0mem, if_pos (hperm.mem_iff.mp hd0mem)]

/-- C6: the resolver checks the inherited search path first — a path hit is
returned and the directory probe never decides the result; only on a total
path miss does it probe the directory list, names outermost, in order
(first-found wins, by definition of the ordered `findSome?` search);
`_which_executable` probes exactly the fixed ordered directory list computed
by `_possible_node_dirs`; and when exactly one directory contains a match,
any reordering (permutation) of the directory list leaves the result
unchanged. -/
theorem C6_resolver (env : ExecEnv) (names dirs dirs' : List String) :
    (∀ p, names.findSome? (whichPath env) = some p →
      whichExecutableIn env dirs names = some p) ∧
    (names.findSome? (whichPath env) = none →
      whichExecutableIn env dirs names = names.findSome? (probeBase env dirs)) ∧
    (∀ we : WinEnv, which_executable env we names =
      whichExecutableIn env (possible_node_dirs we) names) ∧
    (dirs.Perm dirs' →
      (∃ d0 ∈ dirs, dirHasMatch env names d0 = true ∧
        ∀ d ∈ dirs, dirHasMatch env names d = true → d = d0) →
      whichExecutableIn env dirs names = whichExecutableIn env dirs' names) := by
  refine ⟨?_, ?_, fun we => rfl, ?_⟩
  · intro p hp
    unfold whichExecutableIn
    rw [hp]
  · intro hnone
    unfold whichExecutableIn
    rw [hnone]
  · intro hperm huniq
    unfold whichExecutableIn
    cases hpath : names.findSome? (whichPath env) with
    | some p => rfl
    | none =>
      dsimp only
      exact findSome?_congrFun names _ _ (fun base hb =>
        probeBase_perm env names hperm huniq hb)

/-- A concrete resolver environment: nothing on the search path, exactly one
match (`d1/surge.cmd`) in one directory. -/
def c6Env : ExecEnv := ⟨[], ["d1/surge.cmd"]⟩

/-- Witness for C6: reordering the two directories does not change the
result, which is the unique match. -/
theorem C6_resolver_witness :
    whichExecutableIn c6Env ["d0", "d1"] ["surge"] =
      whichExecutableIn c6Env ["d1", "d0"] ["surge"] ∧
    whichExecutableIn c6Env ["d0", "d1"] ["surge"] = some "d1/surge.cmd" := by
  refine ⟨(C6_resolver c6Env ["surge"] ["d0", "d1"] ["d1", "d0"]).2.2.2 (by decide) ?_,
    by decide⟩
  exact ⟨"d1", by decide, by decide, by decide⟩

/-- C7: when neither `surge` nor `npx` can be resolved in the given
environment, dispatch returns failure with a transcript naming both
strategies (`[surge]` and `[npx]`), and the spawn trace is empty — no
subprocess is ever started and every scripted outcome remains unconsumed. -/
theorem C7_not_found (env : ExecEnv) (we : WinEnv) (outs : List ProcOutcome) (folder : String)
    (hs : which_executable env we ["surge"] = none)
    (hn : which_executable env we ["npx"] = none) :
    deploy_to_surge (deployWorldOf env we outs) folder =
      ((false, "[surge] non trovato; provo npx\n[npx] non trovato. Installa Node.js (npx) o aggiungi surge alla PATH."),
        (outs, [])) ∧
    occursIn "[surge]" (deploy_to_surge (deployWorldOf env we outs) folder).1.2 = true ∧
    occursIn "[npx]" (deploy_to_surge (deployWorldOf env we outs) folder).1.2 = true ∧
    (deploy_to_surge (deployWorldOf env we outs) folder).2.2 = [] := by
  have hmain : deploy_to_surge (deployWorldOf env we outs) folder =
      ((false, "[surge] non trovato; provo npx\n[npx] non trovato. Installa Node.js (npx) o aggiungi surge alla PATH."),
        (outs, [])) := by
    unfold deployWorldOf deploy_to_surge
    dsimp only
    rw [hs]
    dsimp only
    unfold npxPhase
    rw [hn]
    rfl
  exact ⟨hmain, by rw [hmain]; rfl, by rw [hmain]; rfl, by rw [hmain]⟩

/-- Witness for C7: in an environment with nothing on the search path, no
files, and no conventional directories, dispatch fails with the two-strategy
transcript without spawning anything. -/
theorem C7_not_found_witness :
    which_executable ⟨[], []⟩ ⟨"", "", "", "", "", []⟩ ["surge"] = none ∧
    which_executable ⟨[], []⟩ ⟨"", "", "", "", "", []⟩ ["npx"] = none ∧
    deploy_to_surge (deployWorldOf ⟨[], []⟩ ⟨"", "", "", "", "", []⟩ []) "dashboardmri" =
      ((false, "[surge] non trovato; provo npx\n[npx] non trovato. Installa Node.js (npx) o aggiungi surge alla PATH."),
        ([], [])) :=
  ⟨by decide, by decide,
    (C7_not_found ⟨[], []⟩ ⟨"", "", "", "", "", []⟩ [] "dashboardmri"
      (by decide) (by decide)).1⟩

/-- A dispatch world in which the direct `surge` session is authenticated,
the direct deploy fails with output `SURGEFAILOUT`, and the `npx` fallback
deploys successfully with output `NPXDEPLOYOUT`. -/
def c2World : SubprocWorld :=
  ⟨some "surge", some "npx",
    [.completes 0 "logged in as someone", .completes 1 "SURGEFAILOUT",
     .completes 0 "logged in as someone", .completes 0 "NPXDEPLOYOUT"]⟩

/-- C2, counterexample: with a failing direct deploy and a succeeding
fallback deploy, the dispatcher returns success but its transcript is the
fallback deploy's output alone — the direct attempt's output
(`SURGEFAILOUT`) does not occur in it, even though that attempt was made (it
is the second entry of the spawn trace). -/
theorem C2_fallback_counterexample :
    (deploy_to_surge c2World "dash").1 = (true, "NPXDEPLOYOUT") ∧
    occursIn "SURGEFAILOUT" (deploy_to_surge c2World "dash").1.2 = false ∧
    ((deploy_to_surge c2World "dash").2.2.map (fun r => r.result)) =
      [(0, "logged in as someone"), (1, "SURGEFAILOUT"),
       (0, "logged in as someone"), (0, "NPXDEPLOYOUT")] :=
  ⟨by decide, by decide, by decide⟩

/-- The direct-tool phase of `deploy_to_surge` (its lines 652–665): `none`
when the direct tool is unresolved; otherwise the login check followed by
the direct deploy invocation, whose `(returncode, output)` and resulting
state are returned. -/
def directPhase (w : SubprocWorld) (folder : String) : Option ((Int × String) × SubSt) :=
  match w.surgeResolved with
  | none => none
  | some sc =>
    some (doRun (surge_login_if_needed sc (w.outcomes, [])).2
      [sc, folder, SURGE_DOMAIN, "--yes"] none 240)

/-- The state the package-runner phase starts from: after the direct phase
when the direct tool ran, the initial state when it was not found. -/
def npxStart (w : SubprocWorld) (folder : String) : SubSt :=
  match directPhase w folder with
  | none => (w.outcomes, [])
  | some d => d.2

/-- The subprocess chain of the resolved package-runner phase (whoami,
best-effort login, deploy), ending with the deploy invocation's
`(returncode, output)`. -/
def npxDeployRun (c folder : String) (st : SubSt) : (Int × String) × SubSt :=
  let w1 := doRun st [c, "surge", "whoami"] none 60
  let st2 := if npxNeedsLogin w1.1.1 w1.1.2 then
      (doRun w1.2 [c, "surge", "login"]
        (some (SURGE_EMAIL ++ "\n" ++ SURGE_PASSWORD ++ "\n")) 120).2
    else w1.2
  doRun st2 [c, "surge", folder, SURGE_DOMAIN, "--yes"] none 300

theorem npxPhase_run (c last folder : String) (st : SubSt) :
    npxPhase (some c) last folder st =
      (if (npxDeployRun c folder st).1.1 == 0 then
        ((true, (npxDeployRun c folder st).1.2), (npxDeployRun c folder st).2)
      else
        ((false, last ++ "\n[npx surge] rc=" ++ intStr (npxDeployRun c folder st).1.1 ++
          "\n" ++ (npxDeployRun c folder st).1.2), (npxDeployRun c folder st).2)) := rfl

theorem deploy_decomp (w : SubprocWorld) (folder : String) :
    deploy_to_surge w folder =
      match directPhase w folder with
      | some d =>
        if d.1.1 == 0 then ((true, d.1.2), d.2)
        else npxPhase w.npxResolved ("[surge] rc=" ++ intStr d.1.1 ++ "\n" ++ d.1.2) folder d.2
      | none => npxPhase w.npxResolved "[surge] non trovato; provo npx" folder
          (w.outcomes, []) := by
  obtain ⟨sr, nr, outs⟩ := w
  cases sr <;> rfl

theorem npxDeployRun_trace (c folder : String) (st : SubSt) :
    ∃ extra, (npxDeployRun c folder st).2.2 = st.2 ++ extra := by
  unfold npxDeployRun doRun
  dsimp only
  split
  · exact ⟨_, by rw [List.append_assoc, List.append_assoc]⟩
  · exact ⟨_, by rw [List.append_assoc]⟩

/-- C2, amended: whenever the package runner is resolved, the direct phase
does not succeed — the direct tool is not found, or its deploy invocation
(after the login check, authenticated or not) exits nonzero — and the
package-runner deploy invocation exits zero with output `out2`, the
dispatcher returns success, but the transcript it returns is `out2` alone:
the accumulated tagged text recording the direct attempt survives only in
the spawn trace, which extends the direct phase's trace chronologically. -/
theorem C2_fallback_success (w : SubprocWorld) (folder c out2 : String)
    (hn : w.npxResolved = some c)
    (hfail : directPhase w folder = none ∨
      ∃ d, directPhase w folder = some d ∧ ¬ d.1.1 = 0)
    (hok : (npxDeployRun c folder (npxStart w folder)).1 = (0, out2)) :
    (deploy_to_surge w folder).1 = (true, out2) ∧
    ∃ extra, (deploy_to_surge w folder).2.2 = (npxStart w folder).2 ++ extra := by
  have key : deploy_to_surge w folder =
      ((true, out2), (npxDeployRun c folder (npxStart w folder)).2) := by
    rcases hfail with hnone | ⟨d, hd, hne⟩
    · have hstart : npxStart w folder = (w.outcomes, []) := by
        unfold npxStart
        rw [hnone]
      rw [hstart] at hok
      have h11 : (npxDeployRun c folder (w.outcomes, [])).1.1 = 0 := by rw [hok]
      have h12 : (npxDeployRun c folder (w.outcomes, [])).1.2 = out2 := by rw [hok]
      rw [deploy_decomp, hnone]
      dsimp only
      rw [hn, npxPhase_run, if_pos (by rw [h11]; decide), h12, hstart]
    · have hstart : npxStart w folder = d.2 := by
        unfold npxStart
        rw [hd]
      rw [hstart] at hok
      have h11 : (npxDeployRun c folder d.2).1.1 = 0 := by rw [hok]
      have h12 : (npxDeployRun c folder d.2).1.2 = out2 := by rw [hok]
      rw [deploy_decomp, hd]
      dsimp only
      rw [if_neg (by simpa using hne), hn, npxPhase_run, if_pos (by rw [h11]; decide),
        h12, hstart]
  exact ⟨by rw [key], by rw [key]; exact npxDeployRun_trace c folder (npxStart w folder)⟩

/-- A dispatch world on the realistic path: the direct tool resolved but the
session unauthenticated (the login round runs), the direct deploy failing,
the package runner needing its own login, and the package-runner deploy
succeeding. -/
def c2LoginWorld : SubprocWorld :=
  ⟨some "surge", some "npx",
    [.completes 1 "", .completes 0 "ok", .completes 0 "logged in as user",
     .completes 1 "SURGEFAILOUT", .completes 1 "", .completes 0 "",
     .completes 0 "NPXDEPLOYOUT"]⟩

/-- Witness for the amended C2 statement on the realistic
unauthenticated-login path. -/
theorem C2_fallback_success_witness :
    c2LoginWorld.npxResolved = some "npx" ∧
    (∃ d, directPhase c2LoginWorld "dash" = some d ∧ ¬ d.1.1 = 0) ∧
    (npxDeployRun "npx" "dash" (npxStart c2LoginWorld "dash")).1 = (0, "NPXDEPLOYOUT") ∧
    (deploy_to_surge c2LoginWorld "dash").1 = (true, "NPXDEPLOYOUT") :=
  ⟨rfl,
   ⟨(directPhase c2LoginWorld "dash").get (by decide),
     (Option.some_get (by decide)).symm, by decide⟩,
   by decide,
   (C2_fallback_success c2LoginWorld "dash" "npx" "NPXDEPLOYOUT" rfl
     (Or.inr ⟨(directPhase c2LoginWorld "dash").get (by decide),
       (Option.some_get (by decide)).symm, by decide⟩)
     (by decide)).1⟩

/-- The safety profile of one spawned invocation: a bounded timeout (every
call site passes between 30 and 300 seconds), no shell interpretation, and
combined-stream capture (stdout piped, stderr merged into stdout). -/
def goodSpawn (r : SpawnRec) : Prop :=
  30 ≤ r.timeout ∧ r.timeout ≤ 300 ∧ r.kwargs.shell = some false ∧
  r.kwargs.stderr = some StdStream.toStdout ∧ r.kwargs.stdout = some StdStream.pipe

theorem goodSpawn_kwargs (cmd : List String) (inp : Option String) (t : Nat)
    (res : Int × String) (k : Bool) (h1 : 30 ≤ t) (h2 : t ≤ 300) :
    goodSpawn ⟨cmd, inp, t, popen_no_window_kwargs (runSubprocessKwargs inp), res, k⟩ := by
  refine ⟨h1, h2, ?_, ?_, ?_⟩ <;> cases inp <;> rfl

theorem allGood_doRun (st : SubSt) (cmd : List String) (inp : Option String) (t : Nat)
    (h : ∀ r ∈ st.2, goodSpawn r) (h1 : 30 ≤ t) (h2 : t ≤ 300) :
    ∀ r ∈ (doRun st cmd inp t).2.2, goodSpawn r := by
  intro r hr
  unfold doRun at hr
  dsimp only at hr
  rcases List.mem_append.mp hr with hmem | hmem
  · exact h r hmem
  · rw [List.mem_singleton] at hmem
    subst hmem
    exact goodSpawn_kwargs cmd inp t _ _ h1 h2

theorem allGood_login (sc : String) (st : SubSt) (h : ∀ r ∈ st.2, goodSpawn r) :
    ∀ r ∈ (surge_login_if_needed sc st).2.2, goodSpawn r := by
  unfold surge_login_if_needed
  dsimp only
  split
  · exact allGood_doRun _ _ _ 30 h (by omega) (by omega)
  · exact allGood_doRun _ _ _ 30
      (allGood_doRun _ _ _ 60 (allGood_doRun _ _ _ 30 h (by omega) (by omega))
        (by omega) (by omega))
      (by omega) (by omega)

theorem allGood_npx (nr : Option String) (last folder : String) (st : SubSt)
    (h : ∀ r ∈ st.2, goodSpawn r) :
    ∀ r ∈ (npxPhase nr last folder st).2.2, goodSpawn r := by
  unfold npxPhase
  cases nr with
  | none => exact h
  | some c =>
    dsimp only
    split
    · split <;>
        exact allGood_doRun _ _ _ 300
          (allGood_doRun _ _ _ 120 (allGood_doRun _ _ _ 60 h (by omega) (by omega))
            (by omega) (by omega))
          (by omega) (by omega)
    · split <;>
        exact allGood_doRun _ _ _ 300 (allGood_doRun _ _ _ 60 h (by omega) (by omega))
          (by omega) (by omega)

theorem deploy_trace_good (w : SubprocWorld) (folder : String) :
    ∀ r ∈ (deploy_to_surge w folder).2.2, goodSpawn r := by
  obtain ⟨sr, nr, outs⟩ := w
  unfold deploy_to_surge
  dsimp only
  have h0 : ∀ r ∈ ((outs, ([] : List SpawnRec)) : SubSt).2, goodSpawn r :=
    fun r hr => absurd hr (List.not_mem_nil r)
  cases sr with
  | none => exact allGood_npx nr _ folder _ h0
  | some sc =>
    dsimp only
    split
    · exact allGood_doRun _ _ _ 240 (allGood_login sc _ h0) (by omega) (by omega)
    · exact allGood_npx nr _ folder _
        (allGood_doRun _ _ _ 240 (allGood_login sc _ h0) (by omega) (by omega))

/-- C9: the effective spawn keyword arguments are always `shell=False`,
piped stdout with stderr merged into it, text mode, and an explicit stdin
(piped exactly when input is supplied); the result handler turns a timeout
into `(1, "Timeout esecuzione comando.")` with the child forcibly killed
(the `true` flag), a missing executable into `(1, "Comando non trovato.")`,
and any other exception into `(1, "Errore esecuzione comando: ...")` — in
every case a plain pair, never a propagated exception; and every invocation
recorded in any dispatch trace has a bounded timeout (between 30 and 300
seconds), no shell interpretation, and combined-stream capture. -/
theorem C9_run_subprocess :
    (∀ inp : Option String, popen_no_window_kwargs (runSubprocessKwargs inp) =
      ⟨some false, some StdStream.pipe, some StdStream.toStdout,
        some (if inp.isSome then StdStream.pipe else StdStream.inherit), some true, none⟩) ∧
    runSubprocessResult .timesOut = ((1, "Timeout esecuzione comando."), true) ∧
    runSubprocessResult .notFound = ((1, "Comando non trovato."), false) ∧
    (∀ m, runSubprocessResult (.otherError m) =
      ((1, "Errore esecuzione comando: " ++ m), false)) ∧
    (∀ rc out, runSubprocessResult (.completes rc out) = ((rc, out), false)) ∧
    (∀ (w : SubprocWorld) (folder : String), ∀ r ∈ (deploy_to_surge w folder).2.2,
      goodSpawn r) :=
  ⟨fun inp => by cases inp <;> rfl, rfl, rfl, fun m => rfl, fun rc out => rfl,
    fun w folder => deploy_trace_good w folder⟩

/-- Witness for C9 at a concrete dispatch: the first recorded invocation of
a successful npx-only run is in the trace and satisfies the spawn safety
profile. -/
theorem C9_run_subprocess_witness :
    (⟨["npx", "surge", "whoami"], none, 60,
        ⟨some false, some StdStream.pipe, some StdStream.toStdout, some StdStream.inherit,
          some true, none⟩, (0, "TOKOUT"), false⟩ : SpawnRec) ∈
      (deploy_to_surge ⟨none, some "npx",
        [.completes 0 "TOKOUT", .completes 0 "DEPOUT"]⟩ "f").2.2 ∧
    goodSpawn ⟨["npx", "surge", "whoami"], none, 60,
      ⟨some false, some StdStream.pipe, some StdStream.toStdout, some StdStream.inherit,
        some true, none⟩, (0, "TOKOUT"), false⟩ :=
  ⟨by decide,
    C9_run_subprocess.2.2.2.2.2
      ⟨none, some "npx", [.completes 0 "TOKOUT", .completes 0 "DEPOUT"]⟩ "f" _ (by decide)⟩
